import Mathlib

/-!
# Bulk access-control provisioning / migration engine — verification

Shallow embedding of the `accesscontrol` code-migration core
(`pkg/services/sqlstore/migrations/accesscontrol` in the repository):
the functions `batch`, `generateNewRoleUID`, `findRole`, `bulkCreateRoles`,
`createRoles`, `createRolesMySQL` and `bulkAssignRoles`.

Modelling conventions:
* Go `int64` values are embedded as `Int`; none of the verified code performs
  arithmetic that can overflow (identifiers are only generated, compared and
  copied), so no `% 2^64` reduction is needed.
* `time.Time` timestamps are abstract clock ticks (`Nat`).  Each Go call of
  `time.Now()` reads the next value of a caller-supplied clock oracle.
* `util.GenerateShortUID` (repository code outside the excerpt) is modelled
  from the spec as an oracle `gen : Nat → String` of candidate short
  identifiers; the migrator consumes candidates sequentially.
* The xorm session is modelled per use-site: the role table is an explicit
  list with an auto-increment id counter; bulk-insert statements used by
  `bulkAssignRoles` are caller-supplied functions on an abstract database
  state, so that storage failures and insert ordering are observable.
* Go maps (`map[int64]map[string]*Role`, `map[int64]map[string]struct{}`) are
  embedded as association lists; iteration order of a Go map is unspecified,
  the list order is the deterministic representative used by the model.
* A Go runtime panic (index out of range on `strings.Split(name, ":")[2]`)
  is represented by the dedicated abnormal result `MigErr.panicOutOfRange`.
-/

set_option autoImplicit false

namespace AcMig

/-! ## Go string primitives used by the migrator -/

/-- Go `strings.HasPrefix s p`: `p.data` is a list-prefix of `s.data`. -/
def hasPrefixGo (s p : String) : Bool :=
  p.data.isPrefixOf s.data

/-- Splitting a character list at every occurrence of `sep`, keeping empty
segments — the semantics of Go `strings.Split` with a one-character
separator.  `[]` yields `[[]]`, matching `strings.Split("", sep) = [""]`. -/
def splitOnChar (sep : Char) : List Char → List (List Char)
  | [] => [[]]
  | c :: cs =>
    if c = sep then [] :: splitOnChar sep cs
    else
      match splitOnChar sep cs with
      | [] => [[c]]
      | g :: gs => (c :: g) :: gs

/-- Go `strings.Split(s, ":")`. -/
def goSplitColon (s : String) : List String :=
  (splitOnChar ':' s.data).map List.asString

/-- The separator test used by Go `strings.Title` (ASCII part of
`unicode.IsSeparator`-style logic inside `strings.Title`): ASCII letters,
digits and `_` are not separators, every other ASCII character is.
Non-ASCII runes follow the Unicode tables in Go; the role-class segments
handled by this migration are ASCII, and the model classifies all non-ASCII
characters as separators. -/
def goIsSeparator (c : Char) : Bool :=
  if c.toNat ≤ 0x7F then !(c.isDigit || c.isAlpha || c = '_')
  else true

/-- Character-list worker for `strings.Title`: a rune is title-cased exactly
when the previous rune is a separator (the initial "previous rune" is a
space). `unicode.ToTitle` on ASCII letters is upper-casing. -/
def goTitleAux : Char → List Char → List Char
  | _, [] => []
  | prev, c :: cs =>
    (if goIsSeparator prev then c.toUpper else c) :: goTitleAux c cs

/-- Go `strings.Title s`. -/
def goTitle (s : String) : String :=
  (goTitleAux ' ' s.data).asString

/-- Go `strconv.ParseInt(s, 10, 64)`, returning `none` on a syntax error
(empty numeral, non-digit character) or a value outside the `int64` range.
An optional single leading `+` or `-` is accepted, then base-10 digits. -/
def parseInt64 (s : String) : Option Int :=
  match s.data with
  | [] => none
  | c :: cs =>
    let neg : Bool := c = '-'
    let digits : List Char := if c = '-' ∨ c = '+' then cs else c :: cs
    if digits.isEmpty then none
    else if digits.all Char.isDigit then
      let n : Nat := digits.foldl (fun a ch => a * 10 + (ch.toNat - 48)) 0
      if neg then
        if n ≤ 2 ^ 63 then some (-(n : Int)) else none
      else
        if n ≤ 2 ^ 63 - 1 then some (n : Int) else none
    else none

/-! ## Data model -/

/-- `accesscontrol.Role` — the fields touched by this migration code
(`id` is the auto-increment primary key; `org_id, uid, name, version,
created, updated` are the columns written by the bulk creator). -/
structure Role where
  id : Int
  orgID : Int
  uid : String
  name : String
  version : Int
  created : Nat
  updated : Nat
  deriving DecidableEq, Repr

/-- The zero value of `accesscontrol.Role`, produced by a miss of
`xorm.Session.Get`. -/
def zeroRole : Role :=
  ⟨0, 0, "", "", 0, 0, 0⟩

/-- The `role` table: stored rows plus the next auto-increment id. -/
structure RoleDB where
  nextID : Int
  roles : List Role
  deriving DecidableEq, Repr

/-- `accesscontrol.UserRole` (fields set by `bulkAssignRoles`). -/
structure UserRole where
  orgID : Int
  roleID : Int
  userID : Int
  created : Nat
  deriving DecidableEq, Repr

/-- `accesscontrol.TeamRole` (fields set by `bulkAssignRoles`). -/
structure TeamRole where
  orgID : Int
  roleID : Int
  teamID : Int
  created : Nat
  deriving DecidableEq, Repr

/-- `accesscontrol.BuiltinRole` (fields set by `bulkAssignRoles`). -/
structure BuiltinRole where
  orgID : Int
  roleID : Int
  role : String
  created : Nat
  updated : Nat
  deriving DecidableEq, Repr

/-- Abnormal results of the migration core.  Each constructor is one
distinguishable Go error (or panic) produced by the code under
verification; `sess e` propagates a storage error verbatim. -/
inductive MigErr (ε : Type) where
  /-- `&ErrUnknownRole{name}` — structured error naming the offending role. -/
  | unknownRole (name : String)
  /-- `strconv.ParseInt` failure; carries the offending numeral
  (`strconv.NumError.Num`). -/
  | parseError (num : String)
  /-- `fmt.Errorf("failed to generate uid")` — UID generation exhausted. -/
  | failedToGenerateUID
  /-- Go runtime panic `index out of range` on `strings.Split(...)[2]`. -/
  | panicOutOfRange
  /-- An error returned by the xorm session, propagated verbatim. -/
  | sess (e : ε)
  deriving DecidableEq, Repr

/-- The package-level default batch size (`var batchSize = 500`). -/
def batchSize : Nat := 500

/-- Go slice expression `l[a:b]` (for `0 ≤ a ≤ b ≤ len l`). -/
def sliceGo {α : Type} (l : List α) (a b : Nat) : List α :=
  (l.drop a).take (b - a)

/-! ## The `batch` primitive -/

/-- Loop body of `batch`, with an explicit iteration meter.  Each Go loop
iteration advances `i` by `min batchSize (count - i) ≥ 1` whenever
`batchSize ≥ 1`, so a meter of `count` iterations is never exhausted on the
domain covered by the claims (`batchSize ≥ 1`; for `batchSize = 0` and
`0 < count` the Go loop does not terminate). -/
def batchGo {σ ε : Type} (count bs : Nat) (f : Nat → Nat → σ → Except ε σ) :
    Nat → Nat → σ → Except ε σ
  | 0, _, s => .ok s
  | fuel + 1, i, s =>
    if i < count then
      match f i (min (i + bs) count) s with
      | .error err => .error err
      | .ok s' => batchGo count bs f fuel (min (i + bs) count) s'
    else .ok s

/-- `batch(count, batchSize, eachFn)`: invoke `eachFn` on consecutive
`[start, end)` windows of `[0, count)`, threading the caller's state and
stopping at the first error. -/
def batch {σ ε : Type} (count bs : Nat) (f : Nat → Nat → σ → Except ε σ)
    (s : σ) : Except ε σ :=
  batchGo count bs f count 0 s

/-- The list of `[start, end)` windows `batch count bs` iterates over,
computed by the same loop. -/
def batchWindowsGo (count bs : Nat) : Nat → Nat → List (Nat × Nat)
  | 0, _ => []
  | fuel + 1, i =>
    if i < count then
      (i, min (i + bs) count) :: batchWindowsGo count bs fuel (min (i + bs) count)
    else []

/-- The windows visited by `batch count bs`. -/
def batchWindows (count bs : Nat) : List (Nat × Nat) :=
  batchWindowsGo count bs count 0

/-- Sequential execution of a per-window operation over an explicit window
list, stopping at the first error — the specification form of `batch`. -/
def runWindows {σ ε : Type} (f : Nat → Nat → σ → Except ε σ) :
    List (Nat × Nat) → σ → Except ε σ
  | [], s => .ok s
  | w :: ws, s =>
    match f w.1 w.2 s with
    | .error err => .error err
    | .ok s' => runWindows f ws s'

/-! ## `findRole` and `generateNewRoleUID` -/

/-- `findRole(orgID, name)`: `sess.Table("role").Where("org_id = ? AND
name = ?", orgID, name).Get(&role)` — the found/not-found flag returned by
`Get` is discarded by the Go code (`_, err := ...`), so a miss yields the
zero `Role` value. -/
def findRole (db : RoleDB) (orgID : Int) (name : String) : Role :=
  match db.roles.find? (fun r => r.orgID == orgID && r.name == name) with
  | some r => r
  | none => zeroRole

/-- The existence check `sess.Where("org_id=? AND uid=?", orgID,
uid).Get(&accesscontrol.Role{})` against an explicit role table (a healthy
session: the query itself never fails). -/
def dbCheck {ε : Type} (db : RoleDB) : Int → String → Except ε Bool :=
  fun orgID uid => .ok (db.roles.any (fun r => r.orgID == orgID && r.uid == uid))

/-- Loop body of `generateNewRoleUID`, counting down the remaining attempts:
draw the next candidate from the oracle `gen`, run the existence `check`
(whose own error is propagated verbatim), return the candidate when unused,
retry when in use. -/
def generateNewRoleUIDGo {ε : Type} (check : Int → String → Except ε Bool)
    (gen : Nat → String) (orgID : Int) : Nat → Nat → Except (MigErr ε) (String × Nat)
  | _, 0 => .error .failedToGenerateUID
  | k, n + 1 =>
    match check orgID (gen k) with
    | .error e => .error (.sess e)
    | .ok true => generateNewRoleUIDGo check gen orgID (k + 1) n
    | .ok false => .ok (gen k, k + 1)

/-- `generateNewRoleUID(sess, orgID)` — `for i := 0; i < 3; i++`, i.e. three
attempts.  `k` is the index of the next unconsumed oracle candidate; the
returned `Nat` is the oracle index after the call. -/
def generateNewRoleUID {ε : Type} (check : Int → String → Except ε Bool)
    (gen : Nat → String) (orgID : Int) (k : Nat) : Except (MigErr ε) (String × Nat) :=
  generateNewRoleUIDGo check gen orgID k 3

/-! ## Bulk role creation -/

/-- The per-role UID-generation loop shared by both creation strategies:
one `generateNewRoleUID` call per input role (scoped to that role's
organization), against the role table as it stands at the start of the
batch (neither strategy inserts before all UIDs of its batch are drawn). -/
def genUIDs {ε : Type} (gen : Nat → String) (db : RoleDB) :
    Nat → List Role → Except (MigErr ε) (List (Role × String) × Nat)
  | k, [] => .ok ([], k)
  | k, r :: rs =>
    match generateNewRoleUID (dbCheck db) gen r.orgID k with
    | .error e => .error e
    | .ok (uid, k₁) =>
      match genUIDs gen db k₁ rs with
      | .error e => .error e
      | .ok (ps, k₂) => .ok ((r, uid) :: ps, k₂)

/-- The row written for spec `p.2.1` with uid `p.2.2` by the combining
strategy's `INSERT INTO role (org_id, uid, name, version, created, updated)
VALUES (?, ?, ?, 1, ?, ?)`: version is the literal `1`, both timestamps the
batch timestamp, the id the auto-increment key. -/
def insertedRow (nextID : Int) (ts : Nat) (p : Nat × Role × String) : Role :=
  ⟨nextID + (p.1 : Int), p.2.1.orgID, p.2.2, p.2.1.name, 1, ts, ts⟩

/-- `createRoles(roles, start, end)` — the combining strategy: generate a
UID per role, issue one multi-row `INSERT ... RETURNING id, org_id, name`.
Only the three returned columns populate the result structs; every other
field keeps its zero value (in particular `uid = ""`).  `k` is the UID
oracle cursor. -/
def createRoles {ε : Type} (gen : Nat → String) (specs : List Role) (ts : Nat)
    (db : RoleDB) (k : Nat) : Except (MigErr ε) (List Role × RoleDB × Nat) :=
  match genUIDs gen db k specs with
  | .error e => .error e
  | .ok (pairs, k') =>
    let newRows := pairs.enum.map (insertedRow db.nextID ts)
    let db' : RoleDB := ⟨db.nextID + (pairs.length : Int), db.roles ++ newRows⟩
    let returned := newRows.map (fun row => ⟨row.id, row.orgID, "", row.name, 0, 0, 0⟩)
    .ok (returned, db', k')

/-- The row written for spec `p.2.1` with uid `p.2.2` by the MySQL
strategy's `Insert(&roles)`: the input struct with `UID`, `Created`,
`Updated` assigned by the loop (its `Version` field is inserted unchanged)
and the auto-increment id. -/
def insertedRowMySQL (nextID : Int) (ts : Nat) (p : Nat × Role × String) : Role :=
  { p.2.1 with id := nextID + (p.1 : Int), uid := p.2.2, created := ts, updated := ts }

/-- `createRolesMySQL(roles, start, end)` — the two-step strategy: generate
a UID per role, set `UID/Created/Updated` on the input structs, insert them
in one multi-row statement, then fetch the created set back with
`WHERE (org_id = ? AND uid = ?) OR ...` over the batch's pairs. -/
def createRolesMySQL {ε : Type} (gen : Nat → String) (specs : List Role) (ts : Nat)
    (db : RoleDB) (k : Nat) : Except (MigErr ε) (List Role × RoleDB × Nat) :=
  match genUIDs gen db k specs with
  | .error e => .error e
  | .ok (pairs, k') =>
    let newRows := pairs.enum.map (insertedRowMySQL db.nextID ts)
    let db' : RoleDB := ⟨db.nextID + (pairs.length : Int), db.roles ++ newRows⟩
    let returned := db'.roles.filter
      (fun row => pairs.any (fun p => row.orgID == p.1.orgID && row.uid == p.2))
    .ok (returned, db', k')

/-- State threaded through `bulkCreateRoles`: the accumulated
`allCreatedRoles`, the role table, and the cursors of the UID oracle and of
the clock oracle (one `time.Now()` per strategy call, i.e. per batch). -/
structure CreateSt where
  acc : List Role
  db : RoleDB
  uidK : Nat
  clockK : Nat
  deriving DecidableEq, Repr

/-- The per-window operation of `bulkCreateRoles`: slice the input,
timestamp the batch, run the strategy selected once from the dialect, and
append the created roles to `allCreatedRoles`. -/
def bulkCreateWindow {ε : Type} (isMySQL : Bool) (gen : Nat → String)
    (clock : Nat → Nat) (allRoles : List Role) (start stop : Nat) (s : CreateSt) :
    Except (MigErr ε) CreateSt :=
  let specs := sliceGo allRoles start stop
  let ts := clock s.clockK
  match (if isMySQL then createRolesMySQL gen specs ts s.db s.uidK
         else createRoles gen specs ts s.db s.uidK) with
  | .error e => .error e
  | .ok (created, db', k') => .ok ⟨s.acc ++ created, db', k', s.clockK + 1⟩

/-- `bulkCreateRoles(allRoles)`: empty input returns `nil, nil` at once;
otherwise `allCreatedRoles` starts empty and the batches run through
`batch` with the package batch size, over the given role table and oracle
cursors.  (On error Go also returns the partial `allCreatedRoles`, which
every caller discards; the model returns the error alone.) -/
def bulkCreateRoles {ε : Type} (isMySQL : Bool) (gen : Nat → String)
    (clock : Nat → Nat) (allRoles : List Role) (db : RoleDB) (uidK clockK : Nat) :
    Except (MigErr ε) (List Role × CreateSt) :=
  if allRoles.length = 0 then .ok ([], ⟨[], db, uidK, clockK⟩)
  else
    match batch allRoles.length batchSize
        (bulkCreateWindow isMySQL gen clock allRoles) ⟨[], db, uidK, clockK⟩ with
    | .error e => .error e
    | .ok s' => .ok (s'.acc, s')

/-- A concrete clock oracle for the witnesses. -/
def clock0 : Nat → Nat :=
  fun c => 100 + c

/-! ## Bulk role assignment -/

/-- `map[int64]map[string]*accesscontrol.Role` as an association list. -/
abbrev RolesMap : Type := List (Int × List (String × Role))

/-- `map[int64]map[string]struct{}` as an association list of name lists. -/
abbrev Assignments : Type := List (Int × List String)

/-- `rolesMap[orgID][name]` with Go's zero-map semantics: a missing
organization behaves as an empty inner map. -/
def lookupRole (rm : RolesMap) (orgID : Int) (name : String) : Option Role :=
  match List.lookup orgID rm with
  | none => none
  | some inner => List.lookup name inner

/-- The three typed buckets populated before any write: user, team and
built-in bindings, in the order the Go code declares them. -/
abbrev Buckets : Type := List UserRole × List TeamRole × List BuiltinRole

/-- The body of the classification loop for one assignment `name` whose
role was found in the index: prefix dispatch (`strings.HasPrefix` against
`"managed:users"`, `"managed:teams"`, `"managed:builtins"` — no trailing
colon), then `strings.Split(name, ":")[2]` (a panic when fewer than three
segments), parsed as int64 for users/teams and title-cased for built-ins;
an unrecognized prefix leaves the buckets untouched. -/
def assignOne {ε : Type} (ts : Nat) (role : Role) (name : String) (b : Buckets) :
    Except (MigErr ε) Buckets :=
  if hasPrefixGo name "managed:users" then
    match (goSplitColon name).get? 2 with
    | none => .error .panicOutOfRange
    | some seg =>
      match parseInt64 seg with
      | none => .error (.parseError seg)
      | some userID => .ok (b.1 ++ [⟨role.orgID, role.id, userID, ts⟩], b.2.1, b.2.2)
  else if hasPrefixGo name "managed:teams" then
    match (goSplitColon name).get? 2 with
    | none => .error .panicOutOfRange
    | some seg =>
      match parseInt64 seg with
      | none => .error (.parseError seg)
      | some teamID => .ok (b.1, b.2.1 ++ [⟨role.orgID, role.id, teamID, ts⟩], b.2.2)
  else if hasPrefixGo name "managed:builtins" then
    match (goSplitColon name).get? 2 with
    | none => .error .panicOutOfRange
    | some seg => .ok (b.1, b.2.1, b.2.2 ++ [⟨role.orgID, role.id, goTitle seg, ts, ts⟩])
  else .ok b

/-- One organization's round of the classification loop: look every name up
in the role index — a miss is `ErrUnknownRole{name}` — then classify it. -/
def assignOrg {ε : Type} (rm : RolesMap) (ts : Nat) (orgID : Int) :
    List String → Buckets → Except (MigErr ε) Buckets
  | [], b => .ok b
  | name :: rest, b =>
    match lookupRole rm orgID name with
    | none => .error (.unknownRole name)
    | some role =>
      match assignOne ts role name b with
      | .error e => .error e
      | .ok b' => assignOrg rm ts orgID rest b'

/-- The outer loop of the bucket-population phase. -/
def classifyGo {ε : Type} (rm : RolesMap) (ts : Nat) :
    Assignments → Buckets → Except (MigErr ε) Buckets
  | [], b => .ok b
  | p :: rest, b =>
    match assignOrg rm ts p.1 p.2 b with
    | .error e => .error e
    | .ok b' => classifyGo rm ts rest b'

/-- The full bucket-population phase of `bulkAssignRoles` (everything
before the first insert). -/
def classifyAssignments {ε : Type} (rm : RolesMap) (asg : Assignments)
    (ts : Nat) : Except (MigErr ε) Buckets :=
  classifyGo rm ts asg ([], [], [])

/-- The storage capability used by `bulkAssignRoles`: one `InsertMulti`
per destination table, over an abstract database state `δ`. -/
structure AssignSess (ε δ : Type) where
  insUser : List UserRole → δ → Except ε δ
  insTeam : List TeamRole → δ → Except ε δ
  insBuiltin : List BuiltinRole → δ → Except ε δ

/-- The per-window operation of one write phase: slice the bucket, issue
the insert, and tag a storage failure as a verbatim session error. -/
def insWrap {ε δ ρ : Type} (ins : List ρ → δ → Except ε δ) (rows : List ρ) :
    Nat → Nat → δ → Except (MigErr ε) δ :=
  fun a b d =>
    match ins (sliceGo rows a b) d with
    | .error e => .error (MigErr.sess e)
    | .ok d' => .ok d'

/-- `bulkAssignRoles(rolesMap, assignments)`: empty assignments return at
once; otherwise populate the three buckets with one shared timestamp, then
write them through `batch`, in the fixed order user → team → built-in,
stopping at the first error (session errors propagate verbatim, tagged
`MigErr.sess`). -/
def bulkAssignRoles {ε δ : Type} (sess : AssignSess ε δ) (rm : RolesMap)
    (asg : Assignments) (ts : Nat) (d : δ) : Except (MigErr ε) δ :=
  if asg.length = 0 then .ok d
  else
    match classifyAssignments (ε := ε) rm asg ts with
    | .error e => .error e
    | .ok buckets =>
      match batch buckets.1.length batchSize (insWrap sess.insUser buckets.1) d with
      | .error e => .error e
      | .ok d1 =>
        match batch buckets.2.1.length batchSize (insWrap sess.insTeam buckets.2.1) d1 with
        | .error e => .error e
        | .ok d2 =>
          batch buckets.2.2.length batchSize (insWrap sess.insBuiltin buckets.2.2) d2

/-- The binding tables written by `bulkAssignRoles`, for the concrete
append-semantics session. -/
structure AssignDB where
  userRoles : List UserRole
  teamRoles : List TeamRole
  builtinRoles : List BuiltinRole
  deriving DecidableEq, Repr

/-- The natural session: each `InsertMulti` appends its rows to its table
and never fails. -/
def appendSess {ε : Type} : AssignSess ε AssignDB :=
  { insUser := fun rows d => .ok { d with userRoles := d.userRoles ++ rows }
    insTeam := fun rows d => .ok { d with teamRoles := d.teamRoles ++ rows }
    insBuiltin := fun rows d => .ok { d with builtinRoles := d.builtinRoles ++ rows } }

/-- One observed bulk-insert statement (which table, which rows). -/
inductive InsertEv where
  | users (rows : List UserRole)
  | teams (rows : List TeamRole)
  | builtins (rows : List BuiltinRole)
  deriving DecidableEq, Repr

/-- A session that records every issued insert, used to observe the order
of the write phases. -/
def traceSess {ε : Type} : AssignSess ε (List InsertEv) :=
  { insUser := fun rows tr => .ok (tr ++ [.users rows])
    insTeam := fun rows tr => .ok (tr ++ [.teams rows])
    insBuiltin := fun rows tr => .ok (tr ++ [.builtins rows]) }

/-- The UID list `us` consists of oracle outputs drawn at strictly
increasing indices inside `[k, k')` — the shape of the candidates consumed
by a run of the bulk creator. -/
def uidsFrom (gen : Nat → String) (us : List String) (k k' : Nat) : Prop :=
  ∃ idxs : List Nat, us = idxs.map gen ∧ idxs.Pairwise (· < ·) ∧
    (∀ j ∈ idxs, k ≤ j ∧ j < k') ∧ k ≤ k'

/-- A concrete per-window operation used to witness the `batch` claims. -/
def incWindow : Nat → Nat → Nat → Except Unit Nat :=
  fun _ _ n => .ok (n + 1)

/-! ## Concrete sample data for witnesses and counterexamples -/

/-- A stored role named `managed:users:42`, owned by organization 1. -/
def roleU : Role := ⟨10, 1, "u1", "managed:users:42", 1, 0, 0⟩

/-- A role index holding only `roleU`. -/
def rmU : RolesMap := [(1, [("managed:users:42", roleU)])]

/-- A stored role whose name starts with `managed:users` but not with
`managed:users:`. -/
def roleX : Role := ⟨11, 1, "u2", "managed:usersx:5", 1, 0, 0⟩

/-- A stored role whose name is exactly `managed:users` (two segments). -/
def roleP : Role := ⟨12, 1, "u3", "managed:users", 1, 0, 0⟩

/-- A stored role with a non-numeric user-id segment. -/
def roleBad : Role := ⟨13, 1, "u4", "managed:users:abc", 1, 0, 0⟩

/-- A stored role whose name matches none of the managed prefixes. -/
def roleE : Role := ⟨14, 1, "u5", "external:role", 1, 0, 0⟩

/-- A role index holding only `roleE`. -/
def rmE : RolesMap := [(1, [("external:role", roleE)])]

/-- A role specification as callers build it (no id/uid/timestamps yet). -/
def specA : Role := ⟨0, 1, "", "roleA", 1, 0, 0⟩

/-- A second role specification in the same organization. -/
def specB : Role := ⟨0, 1, "", "roleB", 1, 0, 0⟩

/-- A role specification carrying `Version = 7`. -/
def spec7 : Role := ⟨0, 1, "", "roleC", 7, 0, 0⟩

/-- A UID oracle with pairwise-distinct, non-empty outputs:
`gen n = "u" ++ n` repetitions of `x`. -/
def genRep : Nat → String :=
  fun n => ⟨'u' :: List.replicate n 'x'⟩

/-- A degenerate UID oracle that always yields the same candidate. -/
def genConst : Nat → String :=
  fun _ => "u"

/-- The roles returned by the MySQL-strategy witness run of
`bulkCreateRoles` on `[specA, specB]` with the `genRep` oracle. -/
def retW2 : List Role :=
  [⟨1, 1, "u", "roleA", 1, 100, 100⟩, ⟨2, 1, "ux", "roleB", 1, 100, 100⟩]

/-- The final creator state of that witness run. -/
def stW2 : CreateSt :=
  ⟨retW2, ⟨3, retW2⟩, 2, 1⟩

/-- An existence check that reports every candidate as unused. -/
def checkFree : Int → String → Except Unit Bool :=
  fun _ _ => .ok false

/-- An existence check that reports every candidate as already in use. -/
def checkBusy : Int → String → Except Unit Bool :=
  fun _ _ => .ok true

/-! ## Lemmas about `batch` -/

theorem batchGo_eq_runWindows {σ ε : Type} (count bs : Nat)
    (f : Nat → Nat → σ → Except ε σ) :
    ∀ (fuel i : Nat) (s : σ),
      batchGo count bs f fuel i s = runWindows f (batchWindowsGo count bs fuel i) s := by
  intro fuel
  induction fuel with
  | zero => intro i s; rfl
  | succ n ih =>
    intro i s
    simp only [batchGo, batchWindowsGo]
    by_cases h : i < count
    · simp only [if_pos h, runWindows]
      cases f i (min (i + bs) count) s with
      | error e => rfl
      | ok s' => exact ih _ s'
    · simp only [if_neg h]; rfl

theorem batchWindowsGo_bind (count bs : Nat) (hb : 0 < bs) :
    ∀ (fuel i : Nat), count - i ≤ fuel →
      (batchWindowsGo count bs fuel i).flatMap (fun w => List.range' w.1 (w.2 - w.1)) =
        List.range' i (count - i) := by
  intro fuel
  induction fuel with
  | zero =>
    intro i h
    have h0 : count - i = 0 := Nat.le_zero.mp h
    simp [batchWindowsGo, h0]
  | succ n ih =>
    intro i h
    simp only [batchWindowsGo]
    by_cases hi : i < count
    · have hle : i ≤ min (i + bs) count := by omega
      have hec : min (i + bs) count ≤ count := by omega
      have hlt : i < min (i + bs) count := by omega
      simp only [if_pos hi, List.flatMap_cons]
      rw [ih (min (i + bs) count) (by omega)]
      have := List.range'_append i (min (i + bs) count - i) (count - min (i + bs) count) 1
      simp only [Nat.one_mul] at this
      have h1 : i + (min (i + bs) count - i) = min (i + bs) count := by omega
      have h2 : count - min (i + bs) count + (min (i + bs) count - i) = count - i := by omega
      rw [h1] at this
      rw [this, h2]
    · have h0 : count - i = 0 := by omega
      simp [if_neg hi, h0]

theorem batchWindowsGo_mem (count bs : Nat) (hb : 0 < bs) :
    ∀ (fuel i : Nat), ∀ w ∈ batchWindowsGo count bs fuel i, w.1 < w.2 ∧ w.2 - w.1 ≤ bs := by
  intro fuel
  induction fuel with
  | zero => intro i w hw; simp [batchWindowsGo] at hw
  | succ n ih =>
    intro i w hw
    simp only [batchWindowsGo] at hw
    by_cases hi : i < count
    · rw [if_pos hi] at hw
      rcases List.mem_cons.mp hw with h | h
      · subst h
        refine ⟨by simp; omega, by simp; omega⟩
      · exact ih _ w h
    · rw [if_neg hi] at hw
      simp at hw

theorem runWindows_append {σ ε : Type} (f : Nat → Nat → σ → Except ε σ)
    (l₁ l₂ : List (Nat × Nat)) (s : σ) :
    runWindows f (l₁ ++ l₂) s =
      match runWindows f l₁ s with
      | .error e => .error e
      | .ok s' => runWindows f l₂ s' := by
  induction l₁ generalizing s with
  | nil => rfl
  | cons w ws ih =>
    simp only [List.cons_append, runWindows]
    cases f w.1 w.2 s with
    | error e => rfl
    | ok s' => exact ih s'

theorem runWindows_congr {σ ε : Type} {f g : Nat → Nat → σ → Except ε σ}
    (ws : List (Nat × Nat)) (h : ∀ p ∈ ws, ∀ t, g p.1 p.2 t = f p.1 p.2 t) (s : σ) :
    runWindows g ws s = runWindows f ws s := by
  induction ws generalizing s with
  | nil => rfl
  | cons w rest ih =>
    simp only [runWindows]
    rw [h w (by simp)]
    cases f w.1 w.2 s with
    | error e => rfl
    | ok s' => exact ih (fun p hp => h p (by simp [hp])) s'

/-! ## Claim C1 — the Batcher -/

/-- **C1**: for every `count ≥ 0` and `batchSize ≥ 1`, `batch` runs the
per-window function exactly over the window list `batchWindows count bs`
in that order; these windows are consecutive, non-overlapping, cover
`[0, count)` exactly once in ascending order, and each has positive size at
most `bs`; with `count = 0` the window list is empty and the call returns
success untouched; and when an invocation returns the first error, `batch`
returns that error, with a result that does not depend on the function's
behaviour on any later window. -/
theorem claim1_batch {σ ε : Type} (count bs : Nat) (f : Nat → Nat → σ → Except ε σ)
    (s : σ) (hb : 0 < bs) :
    batch count bs f s = runWindows f (batchWindows count bs) s
    ∧ (batchWindows count bs).flatMap (fun w => List.range' w.1 (w.2 - w.1)) =
        List.range count
    ∧ (∀ w ∈ batchWindows count bs, w.1 < w.2 ∧ w.2 - w.1 ≤ bs)
    ∧ (count = 0 → batchWindows count bs = [] ∧ batch count bs f s = .ok s)
    ∧ (∀ ws₁ w ws₂ s' err, batchWindows count bs = ws₁ ++ w :: ws₂ →
        runWindows f ws₁ s = .ok s' → f w.1 w.2 s' = .error err →
        ∀ g : Nat → Nat → σ → Except ε σ,
          (∀ p ∈ ws₁, ∀ t, g p.1 p.2 t = f p.1 p.2 t) →
          (∀ t, g w.1 w.2 t = f w.1 w.2 t) →
          batch count bs g s = .error err) := by
  refine ⟨batchGo_eq_runWindows count bs f count 0 s, ?_, ?_, ?_, ?_⟩
  · have h := batchWindowsGo_bind count bs hb count 0 (by omega)
    simpa [batchWindows, List.range_eq_range'] using h
  · exact fun w hw => batchWindowsGo_mem count bs hb count 0 w hw
  · intro h0
    subst h0
    exact ⟨rfl, rfl⟩
  · intro ws₁ w ws₂ s' err hsplit hpre hfail g hg₁ hgw
    have hbatch : batch count bs g s = runWindows g (batchWindows count bs) s :=
      batchGo_eq_runWindows count bs g count 0 s
    rw [hbatch, hsplit, runWindows_append]
    have hok : runWindows g ws₁ s = .ok s' := by
      rw [runWindows_congr ws₁ hg₁ s]
      exact hpre
    rw [hok]
    show runWindows g (w :: ws₂) s' = .error err
    simp only [runWindows]
    rw [hgw s', hfail]

/-- Witness for `claim1_batch` at `count = 5`, `bs = 2`: the hypothesis
`0 < 2` holds and the conclusion follows by applying the theorem. -/
theorem claim1_batch_witness :
    0 < 2 ∧
      (batch 5 2 incWindow 0 = runWindows incWindow (batchWindows 5 2) 0
      ∧ (batchWindows 5 2).flatMap (fun w => List.range' w.1 (w.2 - w.1)) =
          List.range 5
      ∧ (∀ w ∈ batchWindows 5 2, w.1 < w.2 ∧ w.2 - w.1 ≤ 2)
      ∧ (5 = 0 → batchWindows 5 2 = [] ∧ batch 5 2 incWindow 0 = .ok 0)
      ∧ (∀ ws₁ w ws₂ s' err, batchWindows 5 2 = ws₁ ++ w :: ws₂ →
          runWindows incWindow ws₁ 0 = .ok s' → incWindow w.1 w.2 s' = .error err →
          ∀ g : Nat → Nat → Nat → Except Unit Nat,
            (∀ p ∈ ws₁, ∀ t, g p.1 p.2 t = incWindow p.1 p.2 t) →
            (∀ t, g w.1 w.2 t = incWindow w.1 w.2 t) →
            batch 5 2 g 0 = .error err)) :=
  ⟨by decide, claim1_batch 5 2 incWindow 0 (by decide)⟩

/-! ## Claim C9 — `findRole` -/

/-- **C9**: `findRole(orgID, name)` returns the stored role matching the
organization and name when one exists; otherwise it returns the zero
`Role` value (the `Get` found-flag is discarded by the Go code), which is
distinguishable from every successful lookup by its `id = 0` whenever all
persisted roles carry a non-zero id (they do: ids are auto-increment keys
starting at 1). -/
theorem claim9_findRole (db : RoleDB) (orgID : Int) (name : String)
    (hids : ∀ r ∈ db.roles, r.id ≠ 0) :
    ((∃ r ∈ db.roles, r.orgID = orgID ∧ r.name = name) →
      findRole db orgID name ∈ db.roles
      ∧ (findRole db orgID name).orgID = orgID
      ∧ (findRole db orgID name).name = name
      ∧ (findRole db orgID name).id ≠ 0)
    ∧ ((¬ ∃ r ∈ db.roles, r.orgID = orgID ∧ r.name = name) →
      findRole db orgID name = zeroRole ∧ (findRole db orgID name).id = 0) := by
  unfold findRole
  cases hfind : db.roles.find? (fun r => r.orgID == orgID && r.name == name) with
  | some r =>
    have hmem : r ∈ db.roles := List.mem_of_find?_eq_some hfind
    have hp := List.find?_some hfind
    simp only [Bool.and_eq_true, beq_iff_eq] at hp
    constructor
    · intro _
      exact ⟨hmem, hp.1, hp.2, hids r hmem⟩
    · intro hno
      exact absurd ⟨r, hmem, hp.1, hp.2⟩ hno
  | none =>
    have hall := List.find?_eq_none.mp hfind
    constructor
    · rintro ⟨r, hmem, h1, h2⟩
      have := hall r hmem
      simp only [Bool.and_eq_true, beq_iff_eq] at this
      exact absurd (⟨h1, h2⟩ : _ ∧ _) this
    · intro _
      exact ⟨rfl, rfl⟩

/-- Witness for `claim9_findRole` on a one-role table: the id invariant
holds and both branches of the conclusion are produced by the theorem. -/
theorem claim9_findRole_witness :
    (∀ r ∈ (RoleDB.mk 11 [roleU]).roles, r.id ≠ 0) ∧
      (((∃ r ∈ (RoleDB.mk 11 [roleU]).roles,
            r.orgID = 1 ∧ r.name = "managed:users:42") →
          findRole (RoleDB.mk 11 [roleU]) 1 "managed:users:42" ∈
              (RoleDB.mk 11 [roleU]).roles
          ∧ (findRole (RoleDB.mk 11 [roleU]) 1 "managed:users:42").orgID = 1
          ∧ (findRole (RoleDB.mk 11 [roleU]) 1 "managed:users:42").name =
              "managed:users:42"
          ∧ (findRole (RoleDB.mk 11 [roleU]) 1 "managed:users:42").id ≠ 0)
        ∧ ((¬ ∃ r ∈ (RoleDB.mk 11 [roleU]).roles,
            r.orgID = 1 ∧ r.name = "managed:users:42") →
          findRole (RoleDB.mk 11 [roleU]) 1 "managed:users:42" = zeroRole
          ∧ (findRole (RoleDB.mk 11 [roleU]) 1 "managed:users:42").id = 0)) :=
  ⟨by decide, claim9_findRole (RoleDB.mk 11 [roleU]) 1 "managed:users:42" (by decide)⟩

/-! ## Claim C5 — `generateNewRoleUID` -/

theorem genGo_succ {ε : Type} (check : Int → String → Except ε Bool)
    (gen : Nat → String) (orgID : Int) (k n : Nat) :
    generateNewRoleUIDGo check gen orgID k (n + 1) =
      match check orgID (gen k) with
      | .error e => .error (.sess e)
      | .ok true => generateNewRoleUIDGo check gen orgID (k + 1) n
      | .ok false => .ok (gen k, k + 1) := rfl

/-- The three-attempt loop of `generateNewRoleUID`, fully unfolded. -/
theorem generateNewRoleUID_eq {ε : Type} (check : Int → String → Except ε Bool)
    (gen : Nat → String) (orgID : Int) (k : Nat) :
    generateNewRoleUID check gen orgID k =
      match check orgID (gen k) with
      | .error e => .error (.sess e)
      | .ok false => .ok (gen k, k + 1)
      | .ok true =>
        match check orgID (gen (k + 1)) with
        | .error e => .error (.sess e)
        | .ok false => .ok (gen (k + 1), k + 2)
        | .ok true =>
          match check orgID (gen (k + 2)) with
          | .error e => .error (.sess e)
          | .ok false => .ok (gen (k + 2), k + 3)
          | .ok true => .error .failedToGenerateUID := by
  show generateNewRoleUIDGo check gen orgID k (2 + 1) = _
  rw [genGo_succ]
  cases check orgID (gen k) with
  | error e => rfl
  | ok b =>
    cases b with
    | false => rfl
    | true =>
      show generateNewRoleUIDGo check gen orgID (k + 1) (1 + 1) = _
      rw [genGo_succ]
      cases check orgID (gen (k + 1)) with
      | error e => rfl
      | ok b' =>
        cases b' with
        | false => rfl
        | true =>
          show generateNewRoleUIDGo check gen orgID (k + 1 + 1) (0 + 1) = _
          rw [genGo_succ]
          cases check orgID (gen (k + 1 + 1)) with
          | error e => rfl
          | ok b'' => cases b'' <;> rfl

/-- **C5**: `generateNewRoleUID` makes at most 3 attempts — its result only
depends on the first three oracle candidates and their checks; a first free
candidate is returned immediately after a single check; three in-use
candidates produce the dedicated `failedToGenerateUID` error, which is
distinct from every session error and from the unknown-role error; and an
error of the existence check itself is returned verbatim. -/
theorem claim5_generateNewRoleUID {ε : Type} (check : Int → String → Except ε Bool)
    (gen : Nat → String) (orgID : Int) (k : Nat) :
    (check orgID (gen k) = .ok false →
      generateNewRoleUID check gen orgID k = .ok (gen k, k + 1))
    ∧ ((∀ j < 3, check orgID (gen (k + j)) = .ok true) →
      generateNewRoleUID check gen orgID k = .error .failedToGenerateUID)
    ∧ (∀ e : ε, (MigErr.failedToGenerateUID : MigErr ε) ≠ .sess e)
    ∧ (∀ name, (MigErr.failedToGenerateUID : MigErr ε) ≠ .unknownRole name)
    ∧ (∀ m, m < 3 → (∀ j < m, check orgID (gen (k + j)) = .ok true) →
      ∀ e, check orgID (gen (k + m)) = .error e →
      generateNewRoleUID check gen orgID k = .error (.sess e))
    ∧ (∀ (check' : Int → String → Except ε Bool) (gen' : Nat → String),
      (∀ j < 3, gen' (k + j) = gen (k + j)) →
      (∀ j < 3, check' orgID (gen (k + j)) = check orgID (gen (k + j))) →
      generateNewRoleUID check' gen' orgID k = generateNewRoleUID check gen orgID k) := by
  refine ⟨?_, ?_, ?_, ?_, ?_, ?_⟩
  · intro h
    rw [generateNewRoleUID_eq, h]
  · intro hall
    have h0 : check orgID (gen k) = .ok true := by simpa using hall 0 (by omega)
    have h1 : check orgID (gen (k + 1)) = .ok true := hall 1 (by omega)
    have h2 : check orgID (gen (k + 2)) = .ok true := hall 2 (by omega)
    rw [generateNewRoleUID_eq, h0, h1, h2]
  · intro e h
    exact MigErr.noConfusion h
  · intro name h
    exact MigErr.noConfusion h
  · intro m hm hpre e he
    interval_cases m
    · have h0 : check orgID (gen k) = .error e := by simpa using he
      rw [generateNewRoleUID_eq, h0]
    · have h0 : check orgID (gen k) = .ok true := by simpa using hpre 0 (by omega)
      have h1 : check orgID (gen (k + 1)) = .error e := he
      rw [generateNewRoleUID_eq, h0, h1]
    · have h0 : check orgID (gen k) = .ok true := by simpa using hpre 0 (by omega)
      have h1 : check orgID (gen (k + 1)) = .ok true := hpre 1 (by omega)
      have h2 : check orgID (gen (k + 2)) = .error e := he
      rw [generateNewRoleUID_eq, h0, h1, h2]
  · intro check' gen' hgen hcheck
    have hg0 : gen' k = gen k := by simpa using hgen 0 (by omega)
    have hg1 : gen' (k + 1) = gen (k + 1) := hgen 1 (by omega)
    have hg2 : gen' (k + 2) = gen (k + 2) := hgen 2 (by omega)
    have hc0 : check' orgID (gen k) = check orgID (gen k) := by simpa using hcheck 0 (by omega)
    have hc1 : check' orgID (gen (k + 1)) = check orgID (gen (k + 1)) :=
      hcheck 1 (by omega)
    have hc2 : check' orgID (gen (k + 2)) = check orgID (gen (k + 2)) :=
      hcheck 2 (by omega)
    rw [generateNewRoleUID_eq, generateNewRoleUID_eq, hg0, hg1, hg2, hc0, hc1, hc2]

/-- Witness for `claim5_generateNewRoleUID`: with a check that reports the
first candidate free, the call returns it after one check; with an
always-in-use check it fails with the dedicated exhaustion error. -/
theorem claim5_generateNewRoleUID_witness :
    (checkFree 1 (genRep 0) = .ok false
      ∧ generateNewRoleUID checkFree genRep 1 0 = .ok (genRep 0, 1))
    ∧ ((∀ j < 3, checkBusy 1 (genRep (0 + j)) = .ok true)
      ∧ generateNewRoleUID checkBusy genRep 1 0 = .error .failedToGenerateUID) :=
  ⟨⟨rfl, (claim5_generateNewRoleUID checkFree genRep 1 0).1 rfl⟩,
    ⟨fun _ _ => rfl, (claim5_generateNewRoleUID checkBusy genRep 1 0).2.1 (fun _ _ => rfl)⟩⟩

/-! ## String lemmas for the assignment decoder -/

theorem asString_data (s : String) : List.asString s.data = s := rfl

theorem splitOnChar_ne_nil (sep : Char) : ∀ cs : List Char, splitOnChar sep cs ≠ [] := by
  intro cs
  induction cs with
  | nil => simp [splitOnChar]
  | cons c cs ih =>
    simp only [splitOnChar]
    by_cases h : c = sep
    · simp [if_pos h]
    · rw [if_neg h]
      cases hs : splitOnChar sep cs with
      | nil => simp
      | cons g gs => simp

theorem goSplitColon_ne_nil (s : String) : goSplitColon s ≠ [] := by
  unfold goSplitColon
  intro h
  exact splitOnChar_ne_nil ':' s.data (by simpa using h)

theorem splitOnChar_no_sep {sep : Char} :
    ∀ {cs : List Char}, (∀ c ∈ cs, ¬ c = sep) → splitOnChar sep cs = [cs] := by
  intro cs
  induction cs with
  | nil => intro _; rfl
  | cons c cs ih =>
    intro h
    simp only [splitOnChar]
    rw [if_neg (h c (by simp))]
    rw [ih (fun x hx => h x (by simp [hx]))]

theorem goSplitColon_no_colon {s : String} (h : ∀ c ∈ s.data, ¬ c = ':') :
    goSplitColon s = [s] := by
  unfold goSplitColon
  rw [splitOnChar_no_sep h]
  simp [asString_data]

theorem parseInt64_no_colon {s : String} {k : Int} (h : parseInt64 s = some k) :
    ∀ c ∈ s.data, ¬ c = ':' := by
  unfold parseInt64 at h
  cases hdata : s.data with
  | nil => rw [hdata] at h; exact absurd h (by simp)
  | cons c0 cs =>
    rw [hdata] at h
    simp only at h
    intro c hc heq
    subst heq
    by_cases hsign : c0 = '-' ∨ c0 = '+'
    · rw [if_pos hsign] at h
      split at h
      · exact absurd h (by simp)
      · split at h
        · rename_i hdig
          rcases List.mem_cons.mp hc with hc0 | hcs
          · rcases hsign with h' | h' <;> simp [← hc0] at h'
          · have := List.all_eq_true.mp hdig _ hcs
            simp [Char.isDigit] at this
        · exact absurd h (by simp)
    · rw [if_neg hsign] at h
      split at h
      · exact absurd h (by simp)
      · split at h
        · rename_i hdig
          have hin : (':' : Char) ∈ c0 :: cs := hc
          have := List.all_eq_true.mp hdig _ hin
          simp [Char.isDigit] at this
        · exact absurd h (by simp)

theorem goSplitColon_users (s : String) :
    goSplitColon ("managed:users:" ++ s) = "managed" :: "users" :: goSplitColon s := rfl

theorem goSplitColon_teams (s : String) :
    goSplitColon ("managed:teams:" ++ s) = "managed" :: "teams" :: goSplitColon s := rfl

theorem goSplitColon_builtins (s : String) :
    goSplitColon ("managed:builtins:" ++ s) = "managed" :: "builtins" :: goSplitColon s := rfl

theorem hp_users (s : String) :
    hasPrefixGo ("managed:users:" ++ s) "managed:users" = true := rfl

theorem hp_teams (s : String) :
    hasPrefixGo ("managed:teams:" ++ s) "managed:teams" = true := rfl

theorem hp_teams_not_users (s : String) :
    hasPrefixGo ("managed:teams:" ++ s) "managed:users" = false := rfl

theorem hp_builtins (s : String) :
    hasPrefixGo ("managed:builtins:" ++ s) "managed:builtins" = true := rfl

theorem hp_builtins_not_users (s : String) :
    hasPrefixGo ("managed:builtins:" ++ s) "managed:users" = false := rfl

theorem hp_builtins_not_teams (s : String) :
    hasPrefixGo ("managed:builtins:" ++ s) "managed:teams" = false := rfl

/-! ## Behaviour of the per-name classification step -/

theorem assignOne_user {ε : Type} (ts : Nat) (role : Role) (s : String) (k : Int)
    (hk : parseInt64 s = some k) (b : Buckets) :
    assignOne (ε := ε) ts role ("managed:users:" ++ s) b =
      .ok (b.1 ++ [⟨role.orgID, role.id, k, ts⟩], b.2.1, b.2.2) := by
  have hsplit : goSplitColon s = [s] := goSplitColon_no_colon (parseInt64_no_colon hk)
  unfold assignOne
  rw [hp_users]
  simp only [if_true]
  rw [goSplitColon_users, hsplit]
  simp [hk]

theorem assignOne_team {ε : Type} (ts : Nat) (role : Role) (s : String) (k : Int)
    (hk : parseInt64 s = some k) (b : Buckets) :
    assignOne (ε := ε) ts role ("managed:teams:" ++ s) b =
      .ok (b.1, b.2.1 ++ [⟨role.orgID, role.id, k, ts⟩], b.2.2) := by
  have hsplit : goSplitColon s = [s] := goSplitColon_no_colon (parseInt64_no_colon hk)
  unfold assignOne
  rw [hp_teams_not_users]
  simp only [Bool.false_eq_true, if_false]
  rw [hp_teams]
  simp only [if_true]
  rw [goSplitColon_teams, hsplit]
  simp [hk]

theorem assignOne_builtin {ε : Type} (ts : Nat) (role : Role) (s : String) (b : Buckets) :
    assignOne (ε := ε) ts role ("managed:builtins:" ++ s) b =
      .ok (b.1, b.2.1,
        b.2.2 ++ [⟨role.orgID, role.id, goTitle ((goSplitColon s).headD ""), ts, ts⟩]) := by
  unfold assignOne
  rw [hp_builtins_not_users]
  simp only [Bool.false_eq_true, if_false]
  rw [hp_builtins_not_teams]
  simp only [Bool.false_eq_true, if_false]
  rw [hp_builtins]
  simp only [if_true]
  rw [goSplitColon_builtins]
  cases hs : goSplitColon s with
  | nil => exact absurd hs (goSplitColon_ne_nil s)
  | cons seg rest => simp

theorem assignOne_user_badid {ε : Type} (ts : Nat) (role : Role) (s seg : String)
    (hseg : (goSplitColon s).headD "" = seg) (hk : parseInt64 seg = none) (b : Buckets) :
    assignOne (ε := ε) ts role ("managed:users:" ++ s) b = .error (.parseError seg) := by
  unfold assignOne
  rw [hp_users]
  simp only [if_true]
  rw [goSplitColon_users]
  cases hs : goSplitColon s with
  | nil => exact absurd hs (goSplitColon_ne_nil s)
  | cons sg rest =>
    rw [hs] at hseg
    simp at hseg
    subst hseg
    simp [hk]

theorem assignOne_unmanaged {ε : Type} (ts : Nat) (role : Role) (name : String)
    (hu : hasPrefixGo name "managed:users" = false)
    (ht : hasPrefixGo name "managed:teams" = false)
    (hb : hasPrefixGo name "managed:builtins" = false) (b : Buckets) :
    assignOne (ε := ε) ts role name b = .ok b := by
  unfold assignOne
  rw [hu, ht, hb]
  simp

/-! ## Lemmas on the classification phase of `bulkAssignRoles` -/

theorem bulkAssign_classify_error {ε δ : Type} (sess : AssignSess ε δ) (rm : RolesMap)
    (asg : Assignments) (ts : Nat) (d : δ) (e : MigErr ε)
    (hne : ¬ asg.length = 0) (hc : classifyAssignments (ε := ε) rm asg ts = .error e) :
    bulkAssignRoles sess rm asg ts d = .error e := by
  unfold bulkAssignRoles
  rw [if_neg hne, hc]

theorem assignOrg_ok_lookup {ε : Type} (rm : RolesMap) (ts : Nat) (org : Int) :
    ∀ (names : List String) (b b' : Buckets),
      assignOrg (ε := ε) rm ts org names b = .ok b' →
      ∀ n ∈ names, lookupRole rm org n ≠ none := by
  intro names
  induction names with
  | nil => intro b b' _ n hn; simp at hn
  | cons x xs ih =>
    intro b b' h n hn
    unfold assignOrg at h
    split at h
    · exact Except.noConfusion h
    · rename_i role hl
      split at h
      · exact Except.noConfusion h
      · rename_i b2 ha
        rcases List.mem_cons.mp hn with rfl | hxs
        · rw [hl]; simp
        · exact ih b2 b' h n hxs

theorem classifyGo_ok_lookup {ε : Type} (rm : RolesMap) (ts : Nat) :
    ∀ (asg : Assignments) (b b' : Buckets),
      classifyGo (ε := ε) rm ts asg b = .ok b' →
      ∀ p ∈ asg, ∀ n ∈ p.2, lookupRole rm p.1 n ≠ none := by
  intro asg
  induction asg with
  | nil => intro b b' _ p hp; simp at hp
  | cons q rest ih =>
    intro b b' h p hp
    unfold classifyGo at h
    split at h
    · exact Except.noConfusion h
    · rename_i b2 ha
      rcases List.mem_cons.mp hp with rfl | hrest
      · exact assignOrg_ok_lookup rm ts p.1 p.2 b b2 ha
      · exact ih b2 b' h p hrest

theorem assignOne_error_shape {ε : Type} {ts : Nat} {role : Role} {name : String}
    {b : Buckets} {e : MigErr ε} (h : assignOne (ε := ε) ts role name b = .error e) :
    (∃ t, e = .parseError t) ∨ e = .panicOutOfRange := by
  unfold assignOne at h
  split at h
  · split at h
    · injection h with h2
      exact Or.inr h2.symm
    · split at h
      · injection h with h2
        exact Or.inl ⟨_, h2.symm⟩
      · exact Except.noConfusion h
  · split at h
    · split at h
      · injection h with h2
        exact Or.inr h2.symm
      · split at h
        · injection h with h2
          exact Or.inl ⟨_, h2.symm⟩
        · exact Except.noConfusion h
    · split at h
      · split at h
        · injection h with h2
          exact Or.inr h2.symm
        · exact Except.noConfusion h
      · exact Except.noConfusion h

theorem assignOrg_error_shape {ε : Type} (rm : RolesMap) (ts : Nat) (org : Int) :
    ∀ (names : List String) (b : Buckets) (e : MigErr ε),
      assignOrg (ε := ε) rm ts org names b = .error e →
      (∃ n, e = .unknownRole n ∧ n ∈ names ∧ lookupRole rm org n = none)
      ∨ (∃ t, e = .parseError t) ∨ e = .panicOutOfRange := by
  intro names
  induction names with
  | nil => intro b e h; exact Except.noConfusion h
  | cons x xs ih =>
    intro b e h
    unfold assignOrg at h
    split at h
    · rename_i hl
      injection h with h2
      exact Or.inl ⟨x, h2.symm, List.mem_cons_self x xs, hl⟩
    · rename_i role hl
      split at h
      · rename_i e2 ha
        injection h with h2
        subst h2
        rcases assignOne_error_shape ha with h3 | h3
        · exact Or.inr (Or.inl h3)
        · exact Or.inr (Or.inr h3)
      · rename_i b2 ha
        rcases ih b2 e h with ⟨n, hne, hmem, hlk⟩ | h3 | h3
        · exact Or.inl ⟨n, hne, List.mem_cons_of_mem x hmem, hlk⟩
        · exact Or.inr (Or.inl h3)
        · exact Or.inr (Or.inr h3)

theorem classifyGo_error_shape {ε : Type} (rm : RolesMap) (ts : Nat) :
    ∀ (asg : Assignments) (b : Buckets) (e : MigErr ε),
      classifyGo (ε := ε) rm ts asg b = .error e →
      (∃ n, e = .unknownRole n ∧ ∃ p ∈ asg, n ∈ p.2 ∧ lookupRole rm p.1 n = none)
      ∨ (∃ t, e = .parseError t) ∨ e = .panicOutOfRange := by
  intro asg
  induction asg with
  | nil => intro b e h; exact Except.noConfusion h
  | cons q rest ih =>
    intro b e h
    unfold classifyGo at h
    split at h
    · rename_i e2 ha
      injection h with h2
      subst h2
      rcases assignOrg_error_shape rm ts q.1 q.2 b e2 ha with ⟨n, hne, hmem, hlk⟩ | h3 | h3
      · exact Or.inl ⟨n, hne, q, List.mem_cons_self q rest, hmem, hlk⟩
      · exact Or.inr (Or.inl h3)
      · exact Or.inr (Or.inr h3)
    · rename_i b2 ha
      rcases ih b2 e h with ⟨n, hne, p, hp, hmem, hlk⟩ | h3 | h3
      · exact Or.inl ⟨n, hne, p, List.mem_cons_of_mem q hp, hmem, hlk⟩
      · exact Or.inr (Or.inl h3)
      · exact Or.inr (Or.inr h3)

/-! ## Claim C4 — unknown role aborts before any insert -/

/-- **C4 counterexample**: the claim promises that an assignment set
containing the out-of-index name `"ghost"` fails with the unknown-role
error carrying exactly `"ghost"`; but when another name of the same set is
classified first and its id segment fails to parse, the call returns that
parse error instead. -/
theorem claim4_counterexample :
    bulkAssignRoles (ε := Unit) appendSess [(1, [("managed:users:abc", roleBad)])]
        [(1, ["managed:users:abc", "ghost"])] 5 ⟨[], [], []⟩ = .error (.parseError "abc")
    ∧ ((1 : Int), ["managed:users:abc", "ghost"]) ∈
        ([(1, ["managed:users:abc", "ghost"])] : Assignments)
    ∧ "ghost" ∈ ["managed:users:abc", "ghost"]
    ∧ lookupRole [(1, [("managed:users:abc", roleBad)])] 1 "ghost" = none
    ∧ (MigErr.parseError "abc" : MigErr Unit) ≠ .unknownRole "ghost" :=
  ⟨rfl, by simp, by simp, rfl, by simp⟩

/-- **C4 (amended)**: if any organization's assignment set contains a name
absent from the role index, `bulkAssignRoles` fails while populating the
buckets: the error does not depend on the session in any way (so no insert
is issued and storage is unchanged), it is never a session error, and it is
either the unknown-role error carrying exactly some missing name, or the
parse/panic failure of a name classified earlier in iteration order.  When
the missing name is the first one iterated, the error is exactly
`unknownRole` of that name. -/
theorem claim4_unknown_role_amended {ε δ : Type} (rm : RolesMap) (asg : Assignments)
    (ts : Nat) (org : Int) (names : List String) (name : String)
    (hp : (org, names) ∈ asg) (hn : name ∈ names)
    (hmiss : lookupRole rm org name = none) :
    (∃ e : MigErr ε,
      classifyAssignments (ε := ε) rm asg ts = .error e
      ∧ ((∃ n, e = .unknownRole n ∧ ∃ p ∈ asg, n ∈ p.2 ∧ lookupRole rm p.1 n = none)
          ∨ (∃ t, e = .parseError t) ∨ e = .panicOutOfRange)
      ∧ (∀ x : ε, e ≠ .sess x)
      ∧ ∀ (sess : AssignSess ε δ) (d : δ), bulkAssignRoles sess rm asg ts d = .error e)
    ∧ (∀ rest restOrgs, asg = (org, name :: rest) :: restOrgs →
      ∀ (sess : AssignSess ε δ) (d : δ),
        bulkAssignRoles sess rm asg ts d = .error (.unknownRole name)) := by
  have hne : ¬ asg.length = 0 := by
    cases asg with
    | nil => simp at hp
    | cons q rest => simp
  constructor
  · cases hc : classifyAssignments (ε := ε) rm asg ts with
    | ok b' =>
      exact absurd hmiss
        (classifyGo_ok_lookup rm ts asg ([], [], []) b' hc (org, names) hp name hn)
    | error e =>
      refine ⟨e, rfl, classifyGo_error_shape rm ts asg ([], [], []) e hc, ?_, ?_⟩
      · intro x hx
        rcases classifyGo_error_shape rm ts asg ([], [], []) e hc with ⟨n, hshape, _⟩ |
          ⟨t, hshape⟩ | hshape <;> rw [hshape] at hx <;> exact MigErr.noConfusion hx
      · intro sess d
        exact bulkAssign_classify_error sess rm asg ts d e hne hc
  · intro rest restOrgs heq sess d
    subst heq
    have hc : classifyAssignments (ε := ε) rm ((org, name :: rest) :: restOrgs) ts =
        .error (.unknownRole name) := by
      unfold classifyAssignments classifyGo assignOrg
      rw [hmiss]
    exact bulkAssign_classify_error sess rm _ ts d _ hne hc

/-! ## Claim C3 — the assignment decoder -/

/-- **C3 counterexample**: classification is not by the colon-terminated
prefixes the claim names.  `"managed:usersx:5"` starts with none of
`managed:users:` / `managed:teams:` / `managed:builtins:` — under the
claim's classification it would be skipped — yet the code classifies it by
the colon-less prefix `managed:users` and appends a `UserRole` with
user id 5. -/
theorem claim3_counterexample :
    bulkAssignRoles (ε := Unit) appendSess [(1, [("managed:usersx:5", roleX)])]
        [(1, ["managed:usersx:5"])] 5 ⟨[], [], []⟩ =
      .ok ⟨[⟨1, 11, 5, 5⟩], [], []⟩
    ∧ hasPrefixGo "managed:usersx:5" "managed:users:" = false
    ∧ hasPrefixGo "managed:usersx:5" "managed:teams:" = false
    ∧ hasPrefixGo "managed:usersx:5" "managed:builtins:" = false :=
  ⟨rfl, rfl, rfl, rfl⟩

/-- **C3 (amended)**: for an assignment name whose role is in the index,
classification is by the colon-less prefixes `managed:users`,
`managed:teams`, `managed:builtins`.  A name `managed:users:<id>` whose id
parses as a base-10 int64 appends exactly one `UserRole` with that id;
`managed:teams:<id>` one `TeamRole`; `managed:builtins:<class>` (trailing
colon-segments ignored) one `BuiltinRole` whose role is the title-cased
third colon-segment; a non-integer id segment for a user or team name
fails with the parse error carrying that segment, and every
bucket-population error propagates unchanged to `bulkAssignRoles`'s
caller. -/
theorem claim3_assign_decode_amended {ε δ : Type} (ts : Nat) (role : Role)
    (s : String) (b : Buckets) :
    (∀ k : Int, parseInt64 s = some k →
      assignOne (ε := ε) ts role ("managed:users:" ++ s) b =
        .ok (b.1 ++ [⟨role.orgID, role.id, k, ts⟩], b.2.1, b.2.2))
    ∧ (∀ k : Int, parseInt64 s = some k →
      assignOne (ε := ε) ts role ("managed:teams:" ++ s) b =
        .ok (b.1, b.2.1 ++ [⟨role.orgID, role.id, k, ts⟩], b.2.2))
    ∧ assignOne (ε := ε) ts role ("managed:builtins:" ++ s) b =
        .ok (b.1, b.2.1,
          b.2.2 ++ [⟨role.orgID, role.id,
            goTitle ((goSplitColon ("managed:builtins:" ++ s)).getD 2 ""), ts, ts⟩])
    ∧ (parseInt64 ((goSplitColon s).headD "") = none →
      assignOne (ε := ε) ts role ("managed:users:" ++ s) b =
        .error (.parseError ((goSplitColon s).headD "")))
    ∧ (∀ (rm : RolesMap) (asg : Assignments) (e : MigErr ε),
        classifyAssignments (ε := ε) rm asg ts = .error e → ¬ asg.length = 0 →
        ∀ (sess : AssignSess ε δ) (d : δ),
          bulkAssignRoles sess rm asg ts d = .error e) := by
  refine ⟨?_, ?_, ?_, ?_, ?_⟩
  · intro k hk
    exact assignOne_user ts role s k hk b
  · intro k hk
    exact assignOne_team ts role s k hk b
  · have hgd : (goSplitColon ("managed:builtins:" ++ s)).getD 2 "" =
        (goSplitColon s).headD "" := by
      rw [goSplitColon_builtins]
      cases hs : goSplitColon s with
      | nil => exact absurd hs (goSplitColon_ne_nil s)
      | cons a l => simp [List.getD]
    rw [hgd]
    exact assignOne_builtin ts role s b
  · intro hk
    exact assignOne_user_badid ts role s ((goSplitColon s).headD "") rfl hk b
  · intro rm asg e hc hne sess d
    exact bulkAssign_classify_error sess rm asg ts d e hne hc

/-- Witness for `claim3_assign_decode_amended`: decoding
`managed:users:42` with `roleU` in scope appends the single user binding
`(org 1, role id 10, user 42)`. -/
theorem claim3_assign_decode_witness :
    parseInt64 "42" = some 42
    ∧ assignOne (ε := Unit) 5 roleU ("managed:users:" ++ "42") ([], [], []) =
        .ok (([] : List UserRole) ++ [⟨1, 10, 42, 5⟩], [], []) :=
  ⟨rfl, (claim3_assign_decode_amended (ε := Unit) (δ := AssignDB)
    5 roleU "42" ([], [], [])).1 42 rfl⟩

/-- Witness for `claim4_unknown_role_amended`: a one-element assignment set
whose single name `"ghost"` is not in the index. -/
theorem claim4_unknown_role_witness :
    (((1 : Int), ["ghost"]) ∈ ([(1, ["ghost"])] : Assignments)
      ∧ "ghost" ∈ ["ghost"] ∧ lookupRole rmU 1 "ghost" = none)
    ∧ ((∃ e : MigErr Unit,
        classifyAssignments (ε := Unit) rmU [(1, ["ghost"])] 7 = .error e
        ∧ ((∃ n, e = .unknownRole n ∧ ∃ p ∈ ([(1, ["ghost"])] : Assignments),
              n ∈ p.2 ∧ lookupRole rmU p.1 n = none)
            ∨ (∃ t, e = .parseError t) ∨ e = .panicOutOfRange)
        ∧ (∀ x : Unit, e ≠ .sess x)
        ∧ ∀ (sess : AssignSess Unit AssignDB) (d : AssignDB),
            bulkAssignRoles sess rmU [(1, ["ghost"])] 7 d = .error e)
      ∧ (∀ rest restOrgs, ([(1, ["ghost"])] : Assignments) = (1, "ghost" :: rest) :: restOrgs →
        ∀ (sess : AssignSess Unit AssignDB) (d : AssignDB),
          bulkAssignRoles sess rmU [(1, ["ghost"])] 7 d = .error (.unknownRole "ghost"))) :=
  ⟨⟨by simp, by simp, rfl⟩,
    claim4_unknown_role_amended rmU [(1, ["ghost"])] 7 1 ["ghost"] "ghost"
      (by simp) (by simp) rfl⟩

/-! ## Claim C8 — unrecognized names are silently skipped -/

theorem assignOrg_cons {ε : Type} (rm : RolesMap) (ts : Nat) (org : Int)
    (name : String) (rest : List String) (b : Buckets) :
    assignOrg (ε := ε) rm ts org (name :: rest) b =
      match lookupRole rm org name with
      | none => .error (.unknownRole name)
      | some role =>
        match assignOne (ε := ε) ts role name b with
        | .error e => .error e
        | .ok b' => assignOrg rm ts org rest b' := rfl

theorem classifyGo_cons {ε : Type} (rm : RolesMap) (ts : Nat)
    (p : Int × List String) (rest : Assignments) (b : Buckets) :
    classifyGo (ε := ε) rm ts (p :: rest) b =
      match assignOrg (ε := ε) rm ts p.1 p.2 b with
      | .error e => .error e
      | .ok b' => classifyGo rm ts rest b' := rfl

theorem assignOrg_append {ε : Type} (rm : RolesMap) (ts : Nat) (org : Int)
    (l₁ l₂ : List String) :
    ∀ b : Buckets,
      assignOrg (ε := ε) rm ts org (l₁ ++ l₂) b =
        match assignOrg (ε := ε) rm ts org l₁ b with
        | .error e => .error e
        | .ok b' => assignOrg rm ts org l₂ b' := by
  induction l₁ with
  | nil => intro b; rfl
  | cons x xs ih =>
    intro b
    show assignOrg (ε := ε) rm ts org (x :: (xs ++ l₂)) b = _
    rw [assignOrg_cons, assignOrg_cons]
    cases hl : lookupRole rm org x with
    | none => rfl
    | some role =>
      show (match assignOne (ε := ε) ts role x b with
            | Except.error e => (Except.error e : Except (MigErr ε) Buckets)
            | Except.ok b' => assignOrg rm ts org (xs ++ l₂) b') =
          (match (match assignOne (ε := ε) ts role x b with
                  | Except.error e => (Except.error e : Except (MigErr ε) Buckets)
                  | Except.ok b' => assignOrg rm ts org xs b') with
           | Except.error e => (Except.error e : Except (MigErr ε) Buckets)
           | Except.ok b' => assignOrg rm ts org l₂ b')
      cases ha : assignOne (ε := ε) ts role x b with
      | error e => rfl
      | ok b2 => exact ih b2

theorem classifyGo_append {ε : Type} (rm : RolesMap) (ts : Nat)
    (l₁ l₂ : Assignments) :
    ∀ b : Buckets,
      classifyGo (ε := ε) rm ts (l₁ ++ l₂) b =
        match classifyGo (ε := ε) rm ts l₁ b with
        | .error e => .error e
        | .ok b' => classifyGo rm ts l₂ b' := by
  induction l₁ with
  | nil => intro b; rfl
  | cons q qs ih =>
    intro b
    show classifyGo (ε := ε) rm ts (q :: (qs ++ l₂)) b = _
    rw [classifyGo_cons, classifyGo_cons]
    cases ha : assignOrg (ε := ε) rm ts q.1 q.2 b with
    | error e => rfl
    | ok b2 => exact ih b2

theorem assignOrg_skip {ε : Type} (rm : RolesMap) (ts : Nat) (org : Int)
    (ns₁ ns₂ : List String) (name : String) (role : Role)
    (hin : lookupRole rm org name = some role)
    (hu : hasPrefixGo name "managed:users" = false)
    (ht : hasPrefixGo name "managed:teams" = false)
    (hb : hasPrefixGo name "managed:builtins" = false) (b : Buckets) :
    assignOrg (ε := ε) rm ts org (ns₁ ++ name :: ns₂) b =
      assignOrg (ε := ε) rm ts org (ns₁ ++ ns₂) b := by
  rw [assignOrg_append, assignOrg_append]
  cases h : assignOrg (ε := ε) rm ts org ns₁ b with
  | error e => rfl
  | ok b' =>
    show assignOrg (ε := ε) rm ts org (name :: ns₂) b' = assignOrg rm ts org ns₂ b'
    rw [assignOrg_cons]
    simp only [hin]
    simp only [assignOne_unmanaged ts role name hu ht hb b']

/-- **C8**: an assignment name present in the role index but matching none
of the recognized managed prefixes is silently skipped: the classification
step leaves the buckets untouched, and both the bucket-population phase
and the whole `bulkAssignRoles` call behave exactly as if the name were
absent from the assignment set — in particular it causes no error. -/
theorem claim8_skip_unmanaged {ε δ : Type} (sess : AssignSess ε δ) (rm : RolesMap)
    (ts : Nat) (pre post : Assignments) (org : Int) (ns₁ ns₂ : List String)
    (name : String) (role : Role) (d : δ)
    (hin : lookupRole rm org name = some role)
    (hu : hasPrefixGo name "managed:users" = false)
    (ht : hasPrefixGo name "managed:teams" = false)
    (hb : hasPrefixGo name "managed:builtins" = false) :
    (∀ b : Buckets, assignOne (ε := ε) ts role name b = .ok b)
    ∧ classifyAssignments (ε := ε) rm (pre ++ (org, ns₁ ++ name :: ns₂) :: post) ts =
        classifyAssignments (ε := ε) rm (pre ++ (org, ns₁ ++ ns₂) :: post) ts
    ∧ bulkAssignRoles sess rm (pre ++ (org, ns₁ ++ name :: ns₂) :: post) ts d =
        bulkAssignRoles sess rm (pre ++ (org, ns₁ ++ ns₂) :: post) ts d := by
  have hcls : classifyAssignments (ε := ε) rm (pre ++ (org, ns₁ ++ name :: ns₂) :: post) ts =
      classifyAssignments (ε := ε) rm (pre ++ (org, ns₁ ++ ns₂) :: post) ts := by
    unfold classifyAssignments
    rw [classifyGo_append, classifyGo_append]
    cases h : classifyGo (ε := ε) rm ts pre ([], [], []) with
    | error e => rfl
    | ok b1 =>
      show classifyGo (ε := ε) rm ts ((org, ns₁ ++ name :: ns₂) :: post) b1 =
        classifyGo (ε := ε) rm ts ((org, ns₁ ++ ns₂) :: post) b1
      rw [classifyGo_cons, classifyGo_cons]
      simp only [assignOrg_skip rm ts org ns₁ ns₂ name role hin hu ht hb b1]
  refine ⟨fun b => assignOne_unmanaged ts role name hu ht hb b, hcls, ?_⟩
  unfold bulkAssignRoles
  rw [if_neg (by simp), if_neg (by simp), hcls]

/-- Witness for `claim8_skip_unmanaged`: with `external:role` in the index,
assigning it is the same as assigning nothing. -/
theorem claim8_skip_unmanaged_witness :
    (lookupRole rmE 1 "external:role" = some roleE
      ∧ hasPrefixGo "external:role" "managed:users" = false
      ∧ hasPrefixGo "external:role" "managed:teams" = false
      ∧ hasPrefixGo "external:role" "managed:builtins" = false)
    ∧ ((∀ b : Buckets, assignOne (ε := Unit) 7 roleE "external:role" b = .ok b)
      ∧ classifyAssignments (ε := Unit) rmE
          (([] : Assignments) ++ (1, ([] : List String) ++ "external:role" :: []) :: []) 7 =
        classifyAssignments (ε := Unit) rmE
          (([] : Assignments) ++ (1, ([] : List String) ++ []) :: []) 7
      ∧ bulkAssignRoles (ε := Unit) appendSess rmE
          (([] : Assignments) ++ (1, ([] : List String) ++ "external:role" :: []) :: []) 7
          ⟨[], [], []⟩ =
        bulkAssignRoles (ε := Unit) appendSess rmE
          (([] : Assignments) ++ (1, ([] : List String) ++ []) :: []) 7 ⟨[], [], []⟩) :=
  ⟨⟨rfl, rfl, rfl, rfl⟩,
    claim8_skip_unmanaged appendSess rmE 7 [] [] 1 [] [] "external:role" roleE
      ⟨[], [], []⟩ rfl rfl rfl rfl⟩

/-! ## Claim C10 — the unchecked `Split(name, ":")[2]` access -/

/-- The three-segment precondition for one name: any name carrying a
recognized (colon-less) managed prefix splits into at least three
colon-separated segments. -/
def segOK (name : String) : Prop :=
  (hasPrefixGo name "managed:users" || hasPrefixGo name "managed:teams" ||
    hasPrefixGo name "managed:builtins") = true →
  3 ≤ (goSplitColon name).length

theorem assignOne_no_panic {ε : Type} {ts : Nat} {role : Role} {name : String}
    {b : Buckets} (hseg : segOK name) :
    assignOne (ε := ε) ts role name b ≠ .error .panicOutOfRange := by
  intro h
  unfold assignOne at h
  split at h
  · rename_i hc
    split at h
    · rename_i hg
      have hlen := hseg (by simp [hc])
      have := List.get?_eq_none.mp hg
      omega
    · split at h
      · injection h with h2
        exact MigErr.noConfusion h2
      · exact Except.noConfusion h
  · rename_i hc1
    split at h
    · rename_i hc
      split at h
      · rename_i hg
        have hlen := hseg (by simp [hc])
        have := List.get?_eq_none.mp hg
        omega
      · split at h
        · injection h with h2
          exact MigErr.noConfusion h2
        · exact Except.noConfusion h
    · rename_i hc2
      split at h
      · rename_i hc
        split at h
        · rename_i hg
          have hlen := hseg (by simp [hc])
          have := List.get?_eq_none.mp hg
          omega
        · exact Except.noConfusion h
      · exact Except.noConfusion h

theorem assignOrg_no_panic {ε : Type} (rm : RolesMap) (ts : Nat) (org : Int) :
    ∀ (names : List String) (b : Buckets),
      (∀ n ∈ names, segOK n) →
      assignOrg (ε := ε) rm ts org names b ≠ .error .panicOutOfRange := by
  intro names
  induction names with
  | nil => intro b _ h; exact Except.noConfusion h
  | cons x xs ih =>
    intro b hseg h
    unfold assignOrg at h
    split at h
    · injection h with h2
      exact MigErr.noConfusion h2
    · rename_i role hl
      split at h
      · rename_i e2 ha
        injection h with h2
        subst h2
        exact assignOne_no_panic (hseg x (List.mem_cons_self x xs)) ha
      · rename_i b2 ha
        exact ih b2 (fun n hn => hseg n (List.mem_cons_of_mem x hn)) h

theorem classifyGo_no_panic {ε : Type} (rm : RolesMap) (ts : Nat) :
    ∀ (asg : Assignments) (b : Buckets),
      (∀ p ∈ asg, ∀ n ∈ p.2, segOK n) →
      classifyGo (ε := ε) rm ts asg b ≠ .error .panicOutOfRange := by
  intro asg
  induction asg with
  | nil => intro b _ h; exact Except.noConfusion h
  | cons q rest ih =>
    intro b hseg h
    unfold classifyGo at h
    split at h
    · rename_i e2 ha
      injection h with h2
      subst h2
      exact assignOrg_no_panic rm ts q.1 q.2 b
        (hseg q (List.mem_cons_self q rest)) ha
    · rename_i b2 ha
      exact ih b2 (fun p hp => hseg p (List.mem_cons_of_mem q hp)) h

theorem batchGo_insWrap_error {ε δ ρ : Type} (ins : List ρ → δ → Except ε δ)
    (rows : List ρ) (n bs : Nat) :
    ∀ (fuel i : Nat) (d : δ) (e : MigErr ε),
      batchGo n bs (insWrap ins rows) fuel i d = .error e → ∃ x, e = .sess x := by
  intro fuel
  induction fuel with
  | zero => intro i d e h; exact Except.noConfusion h
  | succ m ih =>
    intro i d e h
    unfold batchGo at h
    split at h
    · split at h
      · rename_i err ha
        injection h with h2
        subst h2
        unfold insWrap at ha
        split at ha
        · rename_i x hx
          injection ha with ha2
          exact ⟨x, ha2.symm⟩
        · exact Except.noConfusion ha
      · rename_i d' ha
        exact ih _ _ e h
    · exact Except.noConfusion h

/-- **C10**: `bulkAssignRoles` reads segment 2 of the colon-split of each
classified name without a bounds check.  Under the precondition that every
assignment name carrying one of the colon-less prefixes `managed:users`,
`managed:teams`, `managed:builtins` has at least three colon-separated
segments, no execution reaches the out-of-range access (the call never
produces the modelled index-out-of-range panic, for any session); without
the precondition, the in-index two-segment name `"managed:users"` makes the
access go out of bounds. -/
theorem claim10_split_index_safety {ε δ : Type} (rm : RolesMap) (asg : Assignments)
    (ts : Nat) (sess : AssignSess ε δ) (d : δ)
    (hseg : ∀ org names name, (org, names) ∈ asg → name ∈ names → segOK name) :
    bulkAssignRoles sess rm asg ts d ≠ .error .panicOutOfRange
    ∧ ∀ ts' : Nat,
      bulkAssignRoles (ε := Unit) appendSess [(1, [("managed:users", roleP)])]
        [(1, ["managed:users"])] ts' ⟨[], [], []⟩ = .error .panicOutOfRange := by
  constructor
  · intro h
    unfold bulkAssignRoles at h
    split at h
    · exact Except.noConfusion h
    · split at h
      · rename_i e hc
        injection h with h2
        subst h2
        exact classifyGo_no_panic rm ts asg ([], [], [])
          (fun p hp n hn => hseg p.1 p.2 n hp hn) hc
      · rename_i buckets hc
        split at h
        · rename_i e1 hb1
          injection h with h2
          rcases batchGo_insWrap_error sess.insUser buckets.1 buckets.1.length batchSize
            buckets.1.length 0 d e1 hb1 with ⟨x, hx⟩
          rw [h2] at hx
          exact MigErr.noConfusion hx
        · rename_i d1 hb1
          split at h
          · rename_i e2 hb2
            injection h with h2
            rcases batchGo_insWrap_error sess.insTeam buckets.2.1 buckets.2.1.length
              batchSize buckets.2.1.length 0 d1 e2 hb2 with ⟨x, hx⟩
            rw [h2] at hx
            exact MigErr.noConfusion hx
          · rename_i d2 hb2
            rcases batchGo_insWrap_error sess.insBuiltin buckets.2.2 buckets.2.2.length
              batchSize buckets.2.2.length 0 d2 _ h with ⟨x, hx⟩
            exact MigErr.noConfusion hx
  · intro ts'
    rfl

/-- Witness for `claim10_split_index_safety`: the precondition holds for
the three-segment assignment set `{1 ↦ {"managed:users:42"}}` and the
theorem applies. -/
theorem claim10_split_index_witness :
    (∀ org names name, ((org : Int), names) ∈ ([(1, ["managed:users:42"])] : Assignments) →
      name ∈ names → segOK name)
    ∧ (bulkAssignRoles (ε := Unit) appendSess rmU [(1, ["managed:users:42"])] 7
          ⟨[], [], []⟩ ≠ .error .panicOutOfRange
      ∧ ∀ ts' : Nat,
        bulkAssignRoles (ε := Unit) appendSess [(1, [("managed:users", roleP)])]
          [(1, ["managed:users"])] ts' ⟨[], [], []⟩ = .error .panicOutOfRange) := by
  have hseg : ∀ org names name,
      ((org : Int), names) ∈ ([(1, ["managed:users:42"])] : Assignments) →
      name ∈ names → segOK name := by
    intro org names name hp hn
    simp at hp
    obtain ⟨-, rfl⟩ := hp
    simp at hn
    subst hn
    intro _
    decide
  exact ⟨hseg, claim10_split_index_safety rmU [(1, ["managed:users:42"])] 7
    appendSess ⟨[], [], []⟩ hseg⟩

/-! ## Claim C7 — sequential write phases -/

theorem runWindows_logging {ε α : Type} (g : Nat → Nat → α) :
    ∀ (ws : List (Nat × Nat)) (tr : List α),
      runWindows (fun a b (t : List α) => (Except.ok (ε := ε) (t ++ [g a b]))) ws tr =
        .ok (tr ++ ws.map (fun w => g w.1 w.2)) := by
  intro ws
  induction ws with
  | nil => intro tr; simp [runWindows]
  | cons w rest ih =>
    intro tr
    simp only [runWindows]
    rw [ih]
    simp

theorem bulkAssignRoles_phases {ε δ : Type} (sess : AssignSess ε δ) (rm : RolesMap)
    (asg : Assignments) (ts : Nat) (d : δ) (us : List UserRole) (tms : List TeamRole)
    (bis : List BuiltinRole) (hne : ¬ asg.length = 0)
    (hc : classifyAssignments (ε := ε) rm asg ts = .ok (us, tms, bis)) :
    bulkAssignRoles sess rm asg ts d =
      match batch us.length batchSize (insWrap sess.insUser us) d with
      | .error e => .error e
      | .ok d1 =>
        match batch tms.length batchSize (insWrap sess.insTeam tms) d1 with
        | .error e => .error e
        | .ok d2 => batch bis.length batchSize (insWrap sess.insBuiltin bis) d2 := by
  unfold bulkAssignRoles
  rw [if_neg hne, hc]

/-- **C7**: with no assignments supplied `bulkAssignRoles` performs no
database operation and succeeds (its result is `.ok d` for every session);
otherwise the three buckets are written strictly sequentially, as batched
bulk inserts, in the fixed order user → team → built-in (the recording
session observes exactly the user windows, then the team windows, then the
built-in windows); a failed insert while writing the user bucket makes the
call return that error for every session agreeing on the user insert — the
team and built-in inserts are never consulted — and a failure in the team
phase likewise blocks the built-in phase. -/
theorem claim7_assign_write_order {ε δ : Type} (sess : AssignSess ε δ) (rm : RolesMap)
    (asg : Assignments) (ts : Nat) (d : δ) :
    (asg = [] → bulkAssignRoles sess rm asg ts d = .ok d)
    ∧ (∀ us tms bis,
        classifyAssignments (ε := ε) rm asg ts = .ok (us, tms, bis) →
        ¬ asg.length = 0 →
        (∀ tr : List InsertEv,
          bulkAssignRoles (traceSess (ε := ε)) rm asg ts tr = .ok (tr
            ++ (batchWindows us.length batchSize).map
                (fun w => InsertEv.users (sliceGo us w.1 w.2))
            ++ (batchWindows tms.length batchSize).map
                (fun w => InsertEv.teams (sliceGo tms w.1 w.2))
            ++ (batchWindows bis.length batchSize).map
                (fun w => InsertEv.builtins (sliceGo bis w.1 w.2))))
        ∧ (∀ e, batch us.length batchSize (insWrap sess.insUser us) d = .error e →
            ∀ sess' : AssignSess ε δ, sess'.insUser = sess.insUser →
              bulkAssignRoles sess' rm asg ts d = .error e)
        ∧ (∀ d1 e, batch us.length batchSize (insWrap sess.insUser us) d = .ok d1 →
            batch tms.length batchSize (insWrap sess.insTeam tms) d1 = .error e →
            ∀ sess' : AssignSess ε δ, sess'.insUser = sess.insUser →
              sess'.insTeam = sess.insTeam →
              bulkAssignRoles sess' rm asg ts d = .error e)) := by
  constructor
  · intro h0
    subst h0
    rfl
  · intro us tms bis hc hne
    refine ⟨?_, ?_, ?_⟩
    · intro tr
      rw [bulkAssignRoles_phases (traceSess (ε := ε)) rm asg ts tr us tms bis hne hc]
      have h1 : batch us.length batchSize
          (insWrap (traceSess (ε := ε)).insUser us) tr =
          .ok (tr ++ (batchWindows us.length batchSize).map
            (fun w => InsertEv.users (sliceGo us w.1 w.2))) := by
        show batchGo us.length batchSize _ us.length 0 tr = _
        rw [batchGo_eq_runWindows]
        rw [runWindows_congr
          (f := fun a b (t : List InsertEv) =>
            (Except.ok (ε := MigErr ε) (t ++ [InsertEv.users (sliceGo us a b)])))
          (batchWindowsGo us.length batchSize us.length 0) (fun p _ t => rfl) tr]
        exact runWindows_logging (fun a b => InsertEv.users (sliceGo us a b)) _ tr
      simp only [h1]
      have h2 : batch tms.length batchSize
          (insWrap (traceSess (ε := ε)).insTeam tms)
          (tr ++ (batchWindows us.length batchSize).map
            (fun w => InsertEv.users (sliceGo us w.1 w.2))) =
          .ok (tr ++ (batchWindows us.length batchSize).map
              (fun w => InsertEv.users (sliceGo us w.1 w.2))
            ++ (batchWindows tms.length batchSize).map
              (fun w => InsertEv.teams (sliceGo tms w.1 w.2))) := by
        show batchGo tms.length batchSize _ tms.length 0 _ = _
        rw [batchGo_eq_runWindows]
        rw [runWindows_congr
          (f := fun a b (t : List InsertEv) =>
            (Except.ok (ε := MigErr ε) (t ++ [InsertEv.teams (sliceGo tms a b)])))
          (batchWindowsGo tms.length batchSize tms.length 0) (fun p _ t => rfl) _]
        exact runWindows_logging (fun a b => InsertEv.teams (sliceGo tms a b)) _ _
      simp only [h2]
      show batchGo bis.length batchSize _ bis.length 0 _ = _
      rw [batchGo_eq_runWindows]
      rw [runWindows_congr
        (f := fun a b (t : List InsertEv) =>
          (Except.ok (ε := MigErr ε) (t ++ [InsertEv.builtins (sliceGo bis a b)])))
        (batchWindowsGo bis.length batchSize bis.length 0) (fun p _ t => rfl) _]
      exact runWindows_logging (fun a b => InsertEv.builtins (sliceGo bis a b)) _ _
    · intro e hfail sess' hins
      rw [bulkAssignRoles_phases sess' rm asg ts d us tms bis hne hc]
      simp only [hins, hfail]
    · intro d1 e hok hfail sess' hinsU hinsT
      rw [bulkAssignRoles_phases sess' rm asg ts d us tms bis hne hc]
      simp only [hinsU, hok, hinsT, hfail]

/-! ## Lemmas on UID generation and the two creation strategies -/

theorem genGoPure_ok {ε : Type} (p : Int → String → Bool) (gen : Nat → String)
    (org : Int) :
    ∀ (fuel k : Nat) (uid : String) (k' : Nat),
      generateNewRoleUIDGo (ε := ε) (fun o u => .ok (p o u)) gen org k fuel =
        .ok (uid, k') →
      k < k' ∧ k' ≤ k + fuel ∧ uid = gen (k' - 1) ∧ p org uid = false := by
  intro fuel
  induction fuel with
  | zero => intro k uid k' h; exact Except.noConfusion h
  | succ m ih =>
    intro k uid k' h
    rw [genGo_succ] at h
    cases hp : p org (gen k) with
    | true =>
      simp only [hp] at h
      obtain ⟨h1, h2, h3, h4⟩ := ih (k + 1) uid k' h
      exact ⟨by omega, by omega, h3, h4⟩
    | false =>
      simp only [hp] at h
      have h' : (Except.ok (ε := MigErr ε) (gen k, k + 1)) = .ok (uid, k') := h
      injection h' with h2
      injection h2 with ha hb
      subst ha
      subst hb
      refine ⟨by omega, by omega, by simp, hp⟩

theorem generateNewRoleUID_dbCheck_ok {ε : Type} {db : RoleDB} {gen : Nat → String}
    {org : Int} {k : Nat} {uid : String} {k' : Nat}
    (h : generateNewRoleUID (ε := ε) (dbCheck db) gen org k = .ok (uid, k')) :
    k < k' ∧ k' ≤ k + 3 ∧ uid = gen (k' - 1)
    ∧ ∀ r ∈ db.roles, ¬ (r.orgID = org ∧ r.uid = uid) := by
  obtain ⟨h1, h2, h3, h4⟩ :=
    genGoPure_ok (fun o u => db.roles.any (fun r => r.orgID == o && r.uid == u))
      gen org 3 k uid k' h
  refine ⟨h1, h2, h3, ?_⟩
  intro r hr hcon
  have := List.any_eq_false.mp h4 r hr
  simp only [Bool.and_eq_true, beq_iff_eq] at this
  exact this ⟨hcon.1, hcon.2⟩

theorem uidsFrom_nil (gen : Nat → String) (k : Nat) : uidsFrom gen [] k k :=
  ⟨[], rfl, List.Pairwise.nil, by simp, Nat.le_refl k⟩

theorem uidsFrom_single (gen : Nat → String) (k k' : Nat) (h : k < k') :
    uidsFrom gen [gen (k' - 1)] k k' := by
  refine ⟨[k' - 1], rfl, List.pairwise_singleton _ _, ?_, by omega⟩
  intro j hj
  simp at hj
  omega

theorem uidsFrom_append {gen : Nat → String} {us vs : List String} {k k₁ k₂ : Nat} :
    uidsFrom gen us k k₁ → uidsFrom gen vs k₁ k₂ → uidsFrom gen (us ++ vs) k k₂ := by
  rintro ⟨is, rfl, hpw1, hb1, hk1⟩ ⟨js, rfl, hpw2, hb2, hk2⟩
  refine ⟨is ++ js, by simp, ?_, ?_, by omega⟩
  · refine List.pairwise_append.mpr ⟨hpw1, hpw2, ?_⟩
    intro a ha b hb
    have h1 := hb1 a ha
    have h2 := hb2 b hb
    omega
  · intro j hj
    rcases List.mem_append.mp hj with h | h
    · have := hb1 j h; omega
    · have := hb2 j h; omega

theorem uidsFrom_pairwise_ne {gen : Nat → String} {us : List String} {k k' : Nat}
    (hinj : ∀ i j, gen i = gen j → i = j) (h : uidsFrom gen us k k') :
    us.Pairwise (· ≠ ·) := by
  obtain ⟨is, rfl, hpw, -, -⟩ := h
  refine List.Pairwise.map gen ?_ hpw
  intro a b hab hgeq
  have := hinj a b hgeq
  omega

theorem uidsFrom_ne_empty {gen : Nat → String} {us : List String} {k k' : Nat}
    (hne : ∀ i, gen i ≠ "") (h : uidsFrom gen us k k') : ∀ u ∈ us, u ≠ "" := by
  obtain ⟨is, rfl, -, -, -⟩ := h
  intro u hu
  rcases List.mem_map.mp hu with ⟨j, -, rfl⟩
  exact hne j

theorem genUIDs_ok {ε : Type} (gen : Nat → String) (db : RoleDB) :
    ∀ (specs : List Role) (k : Nat) (pairs : List (Role × String)) (k' : Nat),
      genUIDs (ε := ε) gen db k specs = .ok (pairs, k') →
      pairs.map Prod.fst = specs
      ∧ uidsFrom gen (pairs.map Prod.snd) k k'
      ∧ ∀ p ∈ pairs, ∀ r ∈ db.roles, ¬ (r.orgID = p.1.orgID ∧ r.uid = p.2) := by
  intro specs
  induction specs with
  | nil =>
    intro k pairs k' h
    have h' : (Except.ok (ε := MigErr ε) (([] : List (Role × String)), k)) =
        .ok (pairs, k') := h
    injection h' with h2
    injection h2 with ha hb
    subst ha
    subst hb
    exact ⟨rfl, uidsFrom_nil gen k, by simp⟩
  | cons r rs ih =>
    intro k pairs k' h
    unfold genUIDs at h
    split at h
    · exact Except.noConfusion h
    · rename_i uid k₁ hgen
      split at h
      · exact Except.noConfusion h
      · rename_i ps k₂ hrec
        have h' : (Except.ok (ε := MigErr ε) ((r, uid) :: ps, k₂)) = .ok (pairs, k') := h
        injection h' with h2
        injection h2 with ha hb
        subst ha
        subst hb
        obtain ⟨ih1, ih2, ih3⟩ := ih k₁ ps k₂ hrec
        obtain ⟨hg1, hg2, hg3, hg4⟩ := generateNewRoleUID_dbCheck_ok hgen
        refine ⟨by simp [ih1], ?_, ?_⟩
        · have hsingle : uidsFrom gen [uid] k k₁ := by
            rw [hg3]
            exact uidsFrom_single gen k k₁ hg1
          simpa using uidsFrom_append hsingle ih2
        · intro p hp
          rcases List.mem_cons.mp hp with rfl | hps
          · exact hg4
          · exact ih3 p hps

theorem createRoles_ok {ε : Type} {gen : Nat → String} {specs : List Role} {ts : Nat}
    {db : RoleDB} {k : Nat} {ret : List Role} {db' : RoleDB} {k' : Nat}
    (h : createRoles (ε := ε) gen specs ts db k = .ok (ret, db', k')) :
    ret.length = specs.length
    ∧ ret.map (fun r => (r.orgID, r.name)) = specs.map (fun r => (r.orgID, r.name))
    ∧ (∀ r ∈ ret, r.uid = "")
    ∧ (∀ r ∈ db'.roles, r ∈ db.roles ∨
        (r.version = 1 ∧ r.created = ts ∧ r.updated = ts))
    ∧ uidsFrom gen ((db'.roles.drop db.roles.length).map Role.uid) k k' := by
  unfold createRoles at h
  split at h
  · exact Except.noConfusion h
  · rename_i pairs k₂ hg
    obtain ⟨hfst, huids, hfresh⟩ := genUIDs_ok gen db specs k pairs k₂ hg
    have hplen : pairs.length = specs.length := by
      rw [← hfst]
      simp
    have h' : (Except.ok (ε := MigErr ε)
        ((pairs.enum.map (insertedRow db.nextID ts)).map
            (fun row => (⟨row.id, row.orgID, "", row.name, 0, 0, 0⟩ : Role)),
          (⟨db.nextID + (pairs.length : Int),
            db.roles ++ pairs.enum.map (insertedRow db.nextID ts)⟩ : RoleDB),
          k₂)) = .ok (ret, db', k') := h
    injection h' with h2
    injection h2 with hr hrest
    injection hrest with hdb hk
    subst hr
    subst hdb
    subst hk
    have hmapuid : (pairs.enum.map (insertedRow db.nextID ts)).map Role.uid =
        pairs.map Prod.snd := by
      rw [List.map_map]
      have hco : Role.uid ∘ insertedRow db.nextID ts =
          ((fun p : Role × String => p.2) ∘
            (Prod.snd : Nat × Role × String → Role × String)) := rfl
      rw [hco, ← List.map_map, List.enum_map_snd]
    refine ⟨?_, ?_, ?_, ?_, ?_⟩
    · simp [hplen]
    · rw [List.map_map, List.map_map]
      have hco : (((fun r : Role => (r.orgID, r.name)) ∘
            (fun row : Role => (⟨row.id, row.orgID, "", row.name, 0, 0, 0⟩ : Role))) ∘
            insertedRow db.nextID ts) =
          ((fun p : Role × String => (p.1.orgID, p.1.name)) ∘
            (Prod.snd : Nat × Role × String → Role × String)) := rfl
      rw [hco, ← List.map_map, List.enum_map_snd, ← hfst, List.map_map]
      rfl
    · intro r hr
      rcases List.mem_map.mp hr with ⟨row, -, rfl⟩
      rfl
    · intro r hr
      rcases List.mem_append.mp hr with hcase | hcase
      · exact Or.inl hcase
      · rcases List.mem_map.mp hcase with ⟨q, -, rfl⟩
        exact Or.inr ⟨rfl, rfl, rfl⟩
    · have hdrop : ((db.roles ++ pairs.enum.map (insertedRow db.nextID ts)).drop
          db.roles.length) = pairs.enum.map (insertedRow db.nextID ts) := by
        simp
      rw [hdrop, hmapuid]
      exact huids

theorem createRolesMySQL_ok {ε : Type} {gen : Nat → String} {specs : List Role}
    {ts : Nat} {db : RoleDB} {k : Nat} {ret : List Role} {db' : RoleDB} {k' : Nat}
    (h : createRolesMySQL (ε := ε) gen specs ts db k = .ok (ret, db', k')) :
    ret.length = specs.length
    ∧ ret.map (fun r => (r.orgID, r.name)) = specs.map (fun r => (r.orgID, r.name))
    ∧ uidsFrom gen (ret.map Role.uid) k k'
    ∧ (∀ r ∈ db'.roles, r ∈ db.roles ∨ (r.created = ts ∧ r.updated = ts ∧
        ∃ p ∈ specs, r.version = p.version ∧ r.orgID = p.orgID ∧ r.name = p.name)) := by
  unfold createRolesMySQL at h
  split at h
  · exact Except.noConfusion h
  · rename_i pairs k₂ hg
    obtain ⟨hfst, huids, hfresh⟩ := genUIDs_ok gen db specs k pairs k₂ hg
    have hplen : pairs.length = specs.length := by
      rw [← hfst]
      simp
    have h' : (Except.ok (ε := MigErr ε)
        ((db.roles ++ pairs.enum.map (insertedRowMySQL db.nextID ts)).filter
            (fun row => pairs.any (fun p => row.orgID == p.1.orgID && row.uid == p.2)),
          (⟨db.nextID + (pairs.length : Int),
            db.roles ++ pairs.enum.map (insertedRowMySQL db.nextID ts)⟩ : RoleDB),
          k₂)) = .ok (ret, db', k') := h
    injection h' with h2
    injection h2 with hr hrest
    injection hrest with hdb hk
    subst hdb
    subst hk
    have hold : db.roles.filter
        (fun row => pairs.any (fun p => row.orgID == p.1.orgID && row.uid == p.2)) = [] := by
      rw [List.filter_eq_nil_iff]
      intro r hr hp
      rcases List.any_eq_true.mp hp with ⟨p, hpmem, hbeq⟩
      simp only [Bool.and_eq_true, beq_iff_eq] at hbeq
      exact hfresh p hpmem r hr ⟨hbeq.1, hbeq.2⟩
    have hnew : (pairs.enum.map (insertedRowMySQL db.nextID ts)).filter
        (fun row => pairs.any (fun p => row.orgID == p.1.orgID && row.uid == p.2)) =
        pairs.enum.map (insertedRowMySQL db.nextID ts) := by
      rw [List.filter_eq_self]
      intro row hrow
      rcases List.mem_map.mp hrow with ⟨q, hq, rfl⟩
      have hq2 : q.2 ∈ pairs := by
        have := List.mem_map_of_mem Prod.snd hq
        rwa [List.enum_map_snd] at this
      refine List.any_eq_true.mpr ⟨q.2, hq2, ?_⟩
      simp [insertedRowMySQL]
    have hr2 : ret = pairs.enum.map (insertedRowMySQL db.nextID ts) := by
      rw [← hr, List.filter_append, hold, hnew, List.nil_append]
    subst hr2
    have hmapuid : (pairs.enum.map (insertedRowMySQL db.nextID ts)).map Role.uid =
        pairs.map Prod.snd := by
      rw [List.map_map]
      have hco : Role.uid ∘ insertedRowMySQL db.nextID ts =
          ((fun p : Role × String => p.2) ∘
            (Prod.snd : Nat × Role × String → Role × String)) := rfl
      rw [hco, ← List.map_map, List.enum_map_snd]
    refine ⟨?_, ?_, ?_, ?_⟩
    · simp [hplen]
    · rw [List.map_map]
      have hco : ((fun r : Role => (r.orgID, r.name)) ∘ insertedRowMySQL db.nextID ts) =
          ((fun p : Role × String => (p.1.orgID, p.1.name)) ∘
            (Prod.snd : Nat × Role × String → Role × String)) := rfl
      rw [hco, ← List.map_map, List.enum_map_snd, ← hfst, List.map_map]
      rfl
    · rw [hmapuid]
      exact huids
    · intro r hr
      rcases List.mem_append.mp hr with hcase | hcase
      · exact Or.inl hcase
      · rcases List.mem_map.mp hcase with ⟨q, hq, rfl⟩
        have hq2 : q.2 ∈ pairs := by
          have := List.mem_map_of_mem Prod.snd hq
          rwa [List.enum_map_snd] at this
        have hspec : q.2.1 ∈ specs := by
          have := List.mem_map_of_mem Prod.fst hq2
          rwa [hfst] at this
        exact Or.inr ⟨rfl, rfl, q.2.1, hspec, rfl, rfl, rfl⟩

theorem bulkCreateGo_ok {ε : Type} (isMySQL : Bool) (gen : Nat → String)
    (clock : Nat → Nat) (allRoles : List Role) :
    ∀ (fuel i : Nat) (st res : CreateSt),
      batchGo allRoles.length batchSize
        (bulkCreateWindow (ε := ε) isMySQL gen clock allRoles) fuel i st = .ok res →
      allRoles.length - i ≤ fuel →
      res.acc.map (fun r => (r.orgID, r.name)) =
        st.acc.map (fun r => (r.orgID, r.name)) ++
          (allRoles.drop i).map (fun r => (r.orgID, r.name))
      ∧ (isMySQL = false → ∀ r ∈ res.acc, r ∈ st.acc ∨ r.uid = "")
      ∧ (isMySQL = true → ∃ rest, res.acc = st.acc ++ rest ∧
          uidsFrom gen (rest.map Role.uid) st.uidK res.uidK) := by
  intro fuel
  induction fuel with
  | zero =>
    intro i st res h hle
    have h' : (Except.ok (ε := MigErr ε) st) = .ok res := h
    injection h' with h2
    subst h2
    have hdrop : allRoles.drop i = [] := by
      rw [List.drop_eq_nil_iff]
      omega
    exact ⟨by simp [hdrop], fun _ r hr => Or.inl hr,
      fun _ => ⟨[], by simp, uidsFrom_nil gen st.uidK⟩⟩
  | succ m ih =>
    intro i st res h hle
    unfold batchGo at h
    split at h
    · rename_i hi
      split at h
      · exact Except.noConfusion h
      · rename_i st1 hw
        unfold bulkCreateWindow at hw
        have hbs : 0 < batchSize := by decide
        have hle2 : allRoles.length - min (i + batchSize) allRoles.length ≤ m := by
          omega
        have hslice : sliceGo allRoles i (min (i + batchSize) allRoles.length) ++
            allRoles.drop (min (i + batchSize) allRoles.length) = allRoles.drop i := by
          unfold sliceGo
          have hdd : allRoles.drop (min (i + batchSize) allRoles.length) =
              (allRoles.drop i).drop (min (i + batchSize) allRoles.length - i) := by
            rw [List.drop_drop]
            congr 1
            omega
          rw [hdd]
          exact List.take_append_drop _ _
        cases isMySQL with
        | false =>
          have hwr : (match createRoles (ε := ε) gen
              (sliceGo allRoles i (min (i + batchSize) allRoles.length))
              (clock st.clockK) st.db st.uidK with
            | Except.error e => (Except.error e : Except (MigErr ε) CreateSt)
            | Except.ok (created, db', k') =>
              Except.ok (⟨st.acc ++ created, db', k', st.clockK + 1⟩ : CreateSt)) =
              Except.ok st1 := hw
          split at hwr
          · exact Except.noConfusion hwr
          · rename_i created db2 k2 hcr
            have hw' : (Except.ok (ε := MigErr ε)
                (⟨st.acc ++ created, db2, k2, st.clockK + 1⟩ : CreateSt)) = .ok st1 := hwr
            injection hw' with hw2
            subst hw2
            obtain ⟨ihmap, ihcomb, ihmy⟩ := ih (min (i + batchSize) allRoles.length)
              ⟨st.acc ++ created, db2, k2, st.clockK + 1⟩ res h hle2
            obtain ⟨hlen, hmapg, huid, hdbs, hkk⟩ := createRoles_ok hcr
            refine ⟨?_, ?_, fun hT => Bool.noConfusion hT⟩
            · rw [ihmap, List.map_append, List.append_assoc]
              congr 1
              rw [hmapg, ← List.map_append, hslice]
            · intro _ r hr
              rcases ihcomb rfl r hr with hcase | hcase
              · rcases List.mem_append.mp hcase with h1 | h1
                · exact Or.inl h1
                · exact Or.inr (huid r h1)
              · exact Or.inr hcase
        | true =>
          have hwr : (match createRolesMySQL (ε := ε) gen
              (sliceGo allRoles i (min (i + batchSize) allRoles.length))
              (clock st.clockK) st.db st.uidK with
            | Except.error e => (Except.error e : Except (MigErr ε) CreateSt)
            | Except.ok (created, db', k') =>
              Except.ok (⟨st.acc ++ created, db', k', st.clockK + 1⟩ : CreateSt)) =
              Except.ok st1 := hw
          split at hwr
          · exact Except.noConfusion hwr
          · rename_i created db2 k2 hcr
            have hw' : (Except.ok (ε := MigErr ε)
                (⟨st.acc ++ created, db2, k2, st.clockK + 1⟩ : CreateSt)) = .ok st1 := hwr
            injection hw' with hw2
            subst hw2
            obtain ⟨ihmap, ihcomb, ihmy⟩ := ih (min (i + batchSize) allRoles.length)
              ⟨st.acc ++ created, db2, k2, st.clockK + 1⟩ res h hle2
            obtain ⟨hlen, hmapg, huf1, hdbs⟩ := createRolesMySQL_ok hcr
            refine ⟨?_, fun hF => Bool.noConfusion hF, ?_⟩
            · rw [ihmap, List.map_append, List.append_assoc]
              congr 1
              rw [hmapg, ← List.map_append, hslice]
            · intro _
              obtain ⟨rest2, hacc2, huf2⟩ := ihmy rfl
              refine ⟨created ++ rest2, ?_, ?_⟩
              · rw [hacc2, List.append_assoc]
              · rw [List.map_append]
                exact uidsFrom_append huf1 huf2
    · rename_i hi
      have h' : (Except.ok (ε := MigErr ε) st) = .ok res := h
      injection h' with h2
      subst h2
      have hdrop : allRoles.drop i = [] := by
        rw [List.drop_eq_nil_iff]
        omega
      exact ⟨by simp [hdrop], fun _ r hr => Or.inl hr,
        fun _ => ⟨[], by simp, uidsFrom_nil gen st.uidK⟩⟩

/-- Witness for `claim7_assign_write_order`: one user assignment produces
exactly one user-table bulk insert and nothing else, in that order. -/
theorem claim7_assign_write_witness :
    classifyAssignments (ε := Unit) rmU [(1, ["managed:users:42"])] 5 =
      .ok ([⟨1, 10, 42, 5⟩], [], [])
    ∧ ¬ ([(1, ["managed:users:42"])] : Assignments).length = 0
    ∧ bulkAssignRoles (traceSess (ε := Unit)) rmU [(1, ["managed:users:42"])] 5 [] =
        .ok (([] : List InsertEv)
          ++ (batchWindows ([⟨1, 10, 42, 5⟩] : List UserRole).length batchSize).map
              (fun w => InsertEv.users (sliceGo ([⟨1, 10, 42, 5⟩] : List UserRole) w.1 w.2))
          ++ (batchWindows ([] : List TeamRole).length batchSize).map
              (fun w => InsertEv.teams (sliceGo ([] : List TeamRole) w.1 w.2))
          ++ (batchWindows ([] : List BuiltinRole).length batchSize).map
              (fun w => InsertEv.builtins (sliceGo ([] : List BuiltinRole) w.1 w.2))) :=
  ⟨rfl, by simp,
    ((claim7_assign_write_order (ε := Unit) (δ := AssignDB) appendSess rmU
      [(1, ["managed:users:42"])] 5 ⟨[], [], []⟩).2
      [⟨1, 10, 42, 5⟩] [] [] rfl (by simp)).1 []⟩

/-! ## Claim C2 — the bulk creator's returned roles -/

/-- **C2 counterexample**: (i) under the combining strategy the returned
role structs carry an empty UID — `INSERT ... RETURNING id, org_id, name`
selects no uid column, so the claim's "non-empty UID" fails; (ii) under the
MySQL strategy a degenerate generator gives two roles of one organization
the same UID — the existence check only guards against already-persisted
roles, not against siblings of the same batch — so "unique within its
organization" fails as well. -/
theorem claim2_counterexample :
    (bulkCreateRoles (ε := Unit) false genRep clock0 [specA] ⟨1, []⟩ 0 0 =
      .ok ([⟨1, 1, "", "roleA", 0, 0, 0⟩],
        ⟨[⟨1, 1, "", "roleA", 0, 0, 0⟩], ⟨2, [⟨1, 1, "u", "roleA", 1, 100, 100⟩]⟩, 1, 1⟩))
    ∧ (bulkCreateRoles (ε := Unit) true genConst clock0 [specA, specB] ⟨1, []⟩ 0 0 =
      .ok ([⟨1, 1, "u", "roleA", 1, 100, 100⟩, ⟨2, 1, "u", "roleB", 1, 100, 100⟩],
        ⟨[⟨1, 1, "u", "roleA", 1, 100, 100⟩, ⟨2, 1, "u", "roleB", 1, 100, 100⟩],
          ⟨3, [⟨1, 1, "u", "roleA", 1, 100, 100⟩, ⟨2, 1, "u", "roleB", 1, 100, 100⟩]⟩,
          2, 1⟩))
    ∧ Role.uid ⟨1, 1, "", "roleA", 0, 0, 0⟩ = ""
    ∧ (Role.uid ⟨1, 1, "u", "roleA", 1, 100, 100⟩ =
        Role.uid ⟨2, 1, "u", "roleB", 1, 100, 100⟩
      ∧ Role.orgID ⟨1, 1, "u", "roleA", 1, 100, 100⟩ =
          Role.orgID ⟨2, 1, "u", "roleB", 1, 100, 100⟩
      ∧ (⟨1, 1, "u", "roleA", 1, 100, 100⟩ : Role) ≠
          ⟨2, 1, "u", "roleB", 1, 100, 100⟩) :=
  ⟨rfl, rfl, rfl, rfl, rfl, by decide⟩

/-- **C2 (amended)**: for every input of N role specifications, a
successful `bulkCreateRoles` returns exactly N roles whose (OrgID, Name)
pairs equal the input's (in this sequential model even in input order, so
a fortiori as a multiset); under the combining strategy every returned
struct carries an empty UID (only id, org_id, name are selected back);
under the MySQL strategy the returned roles carry the generated UIDs,
which are non-empty whenever the generator's outputs are non-empty, and
pairwise distinct (hence unique within each organization) whenever the
generator never repeats a candidate. -/
theorem claim2_bulk_create_amended {ε : Type} (isMySQL : Bool) (gen : Nat → String)
    (clock : Nat → Nat) (allRoles : List Role) (db : RoleDB) (uidK clockK : Nat)
    (ret : List Role) (st' : CreateSt)
    (hok : bulkCreateRoles (ε := ε) isMySQL gen clock allRoles db uidK clockK =
      .ok (ret, st')) :
    ret.length = allRoles.length
    ∧ ret.map (fun r => (r.orgID, r.name)) = allRoles.map (fun r => (r.orgID, r.name))
    ∧ (isMySQL = false → ∀ r ∈ ret, r.uid = "")
    ∧ (isMySQL = true →
        ((∀ n, gen n ≠ "") → ∀ r ∈ ret, r.uid ≠ "")
        ∧ ((∀ i j, gen i = gen j → i = j) →
            ret.Pairwise (fun a b => a.uid ≠ b.uid))) := by
  unfold bulkCreateRoles at hok
  split at hok
  · rename_i hlen
    have hok' : (Except.ok (ε := MigErr ε)
        (([] : List Role), (⟨[], db, uidK, clockK⟩ : CreateSt))) = .ok (ret, st') := hok
    injection hok' with h2
    injection h2 with hr hs
    subst hr
    have hnil : allRoles = [] := List.length_eq_zero.mp hlen
    subst hnil
    exact ⟨rfl, rfl, fun _ r hr => absurd hr (by simp),
      fun _ => ⟨fun _ r hr => absurd hr (by simp), fun _ => List.Pairwise.nil⟩⟩
  · split at hok
    · exact Except.noConfusion hok
    · rename_i s2 hbatch
      have hok' : (Except.ok (ε := MigErr ε) (s2.acc, s2)) = .ok (ret, st') := hok
      injection hok' with h2
      injection h2 with hr hs
      subst hr
      obtain ⟨hmap, hcomb, hmysql⟩ := bulkCreateGo_ok isMySQL gen clock allRoles
        allRoles.length 0 ⟨[], db, uidK, clockK⟩ s2 hbatch (by omega)
      refine ⟨?_, ?_, ?_, ?_⟩
      · have := congrArg List.length hmap
        simpa using this
      · simpa using hmap
      · intro hF r hr
        rcases hcomb hF r hr with hc | hc
        · exact absurd hc (by simp)
        · exact hc
      · intro hT
        obtain ⟨rest, hacc, huf⟩ := hmysql hT
        have hrest : s2.acc = rest := by simpa using hacc
        constructor
        · intro hne r hr
          have hmem : r.uid ∈ rest.map Role.uid := by
            rw [← hrest]
            exact List.mem_map_of_mem Role.uid hr
          exact uidsFrom_ne_empty hne huf r.uid hmem
        · intro hinj
          have hpw := uidsFrom_pairwise_ne hinj huf
          have hpw2 := List.pairwise_map.mp hpw
          rw [hrest]
          exact hpw2

theorem genRep_ne_empty : ∀ n, genRep n ≠ "" := by
  intro n h
  have hd : ('u' :: List.replicate n 'x') = ([] : List Char) := congrArg String.data h
  simp at hd

theorem genRep_injective : ∀ i j, genRep i = genRep j → i = j := by
  intro i j h
  have hd : ('u' :: List.replicate i 'x') = ('u' :: List.replicate j 'x') :=
    congrArg String.data h
  have hlen := congrArg List.length hd
  simpa using hlen

/-- Witness for `claim2_bulk_create_amended`: the MySQL strategy on two
specifications of organization 1 with the injective, non-empty `genRep`
oracle. -/
theorem claim2_bulk_create_witness :
    bulkCreateRoles (ε := Unit) true genRep clock0 [specA, specB] ⟨1, []⟩ 0 0 =
      .ok (retW2, stW2)
    ∧ (retW2.length = ([specA, specB] : List Role).length
      ∧ retW2.map (fun r => (r.orgID, r.name)) =
          ([specA, specB] : List Role).map (fun r => (r.orgID, r.name))
      ∧ (true = false → ∀ r ∈ retW2, r.uid = "")
      ∧ (true = true →
          ((∀ n, genRep n ≠ "") → ∀ r ∈ retW2, r.uid ≠ "")
          ∧ ((∀ i j, genRep i = genRep j → i = j) →
              retW2.Pairwise (fun a b => a.uid ≠ b.uid)))) :=
  ⟨rfl, claim2_bulk_create_amended (ε := Unit) true genRep clock0 [specA, specB]
    ⟨1, []⟩ 0 0 retW2 stW2 rfl⟩

/-! ## Claim C6 — Version and timestamps of persisted roles -/

/-- **C6 counterexample**: the MySQL strategy inserts the caller's structs
unchanged except for UID and timestamps, so a specification carrying
`Version = 7` is persisted with version 7, not 1. -/
theorem claim6_counterexample :
    createRolesMySQL (ε := Unit) genRep [spec7] 9 ⟨1, []⟩ 0 =
      .ok ([⟨1, 1, "u", "roleC", 7, 9, 9⟩],
        ⟨2, [⟨1, 1, "u", "roleC", 7, 9, 9⟩]⟩, 1)
    ∧ Role.version ⟨1, 1, "u", "roleC", 7, 9, 9⟩ ≠ 1 :=
  ⟨rfl, by decide⟩

/-- **C6 (amended)**: in every batch, all newly persisted roles carry
identical Created and Updated timestamps equal to the single timestamp
obtained at the start of that strategy call; the combining strategy
persists every role with `Version = 1` (the literal in its INSERT), while
the MySQL strategy persists each input specification's Version field
unchanged (callers are expected to pass 1). -/
theorem claim6_version_timestamps_amended {ε : Type} (gen : Nat → String)
    (specs : List Role) (ts : Nat) (db : RoleDB) (k : Nat) :
    (∀ ret db' k', createRoles (ε := ε) gen specs ts db k = .ok (ret, db', k') →
      ∀ r ∈ db'.roles, r ∈ db.roles ∨
        (r.version = 1 ∧ r.created = ts ∧ r.updated = ts))
    ∧ (∀ ret db' k', createRolesMySQL (ε := ε) gen specs ts db k = .ok (ret, db', k') →
      ∀ r ∈ db'.roles, r ∈ db.roles ∨ (r.created = ts ∧ r.updated = ts ∧
        ∃ p ∈ specs, r.version = p.version ∧ r.orgID = p.orgID ∧ r.name = p.name)) :=
  ⟨fun _ _ _ h => (createRoles_ok h).2.2.2.1,
   fun _ _ _ h => (createRolesMySQL_ok h).2.2.2⟩

/-- Witness for `claim6_version_timestamps_amended`: a combining-strategy
run over one specification stamps the persisted role with version 1 and
the call timestamp. -/
theorem claim6_version_timestamps_witness :
    createRoles (ε := Unit) genRep [specA] 9 ⟨1, []⟩ 0 =
      .ok ([⟨1, 1, "", "roleA", 0, 0, 0⟩], ⟨2, [⟨1, 1, "u", "roleA", 1, 9, 9⟩]⟩, 1)
    ∧ (∀ r ∈ (⟨2, [⟨1, 1, "u", "roleA", 1, 9, 9⟩]⟩ : RoleDB).roles,
        r ∈ (⟨1, []⟩ : RoleDB).roles ∨
          (r.version = 1 ∧ r.created = 9 ∧ r.updated = 9)) :=
  ⟨rfl, (claim6_version_timestamps_amended (ε := Unit) genRep [specA] 9 ⟨1, []⟩ 0).1
    [⟨1, 1, "", "roleA", 0, 0, 0⟩] ⟨2, [⟨1, 1, "u", "roleA", 1, 9, 9⟩]⟩ 1 rfl⟩

end AcMig
